import Mathlib

/-!
Verification of the Vanguard league Tournament & Rating Engine.

This file shallowly embeds the core operations of the backend
(`app/api/rankings_recalc.py`, `app/api/tournament.py`,
`app/services/tournament_engine.py`) as executable Lean definitions and
proves or refutes the specification's claims about them.

Conventions of the embedding:
* SQLAlchemy rows become Lean structures; nullable columns become `Option`.
* Python float arithmetic on ratings is modelled over `ℚ`.  The single
  transcendental operation, `calculate_expected_score` (which computes
  `1 / (1 + 10 ** ((rating_b - rating_a) / 400))`), is not rational; the
  replay engine is therefore parameterised by an abstract expected-score
  function `e : ℚ → ℚ → ℚ` standing for it.  Every theorem below either
  holds for all such functions or does not depend on the rating values.
* Python truthiness on optional integer columns (`if not match.weight_class_id`)
  is modelled by `optTruthy` (false on `none` and on `0`).
* The database assigns consecutive primary keys in creation order and
  guarantees their uniqueness; row updates are modelled as `List.map`
  keyed on the id.
-/

namespace Vanguard

/-- `app/models/match.py` `MatchResult` (wire values a_win / b_win / draw / no_contest). -/
inductive MatchResult where
  | PLAYER_A_WIN
  | PLAYER_B_WIN
  | DRAW
  | NO_CONTEST
deriving DecidableEq

/-- `app/models/match.py` `MatchStatus`. -/
inductive MatchStatus where
  | PENDING
  | READY
  | IN_PROGRESS
  | COMPLETED
  | CANCELLED
deriving DecidableEq

/-- `app/models/bracket_format.py` `TournamentFormat`. -/
inductive TournamentFormat where
  | SINGLE_ELIMINATION
  | DOUBLE_ELIMINATION
  | SWISS
  | ROUND_ROBIN
  | GUARANTEED_MATCHES
deriving DecidableEq

/-- The fields of `app/models/player.py` `Player` that the core engine reads
or writes: identity, belt, body weight, the overall (P4P) rating, the three
per-weight-class rating tracks and their recorded initial values. -/
structure Player where
  id : Nat
  bjj_belt_rank : Option String := none
  weight : Option ℚ := none
  elo_rating : Option ℚ := none
  elo_lightweight : Option ℚ := none
  elo_middleweight : Option ℚ := none
  elo_heavyweight : Option ℚ := none
  initial_elo_lightweight : Option ℚ := none
  initial_elo_middleweight : Option ℚ := none
  initial_elo_heavyweight : Option ℚ := none
deriving DecidableEq

/-- The fields of `app/models/match.py` `Match` used by the engine.
`event_date` denormalises the joined `Event.date` used by the replay's
ordering.  Field defaults mirror the column defaults (nullable ⇒ `none`,
`match_status` defaults to PENDING, `requires_winner_a/b` default to true). -/
structure Match where
  id : Nat
  event_date : Nat := 0
  a_player_id : Option Nat := none
  b_player_id : Option Nat := none
  weight_class_id : Option Nat := none
  result : Option MatchResult := none
  method : Option String := none
  duration_seconds : Option Nat := none
  bracket_round_id : Option Nat := none
  match_status : MatchStatus := MatchStatus.PENDING
  match_number : Option Nat := none
  depends_on_match_a : Option Nat := none
  depends_on_match_b : Option Nat := none
  requires_winner_a : Bool := true
  requires_winner_b : Bool := true
  completed_at : Option Nat := none
  a_elo_change : Option Int := none
  b_elo_change : Option Int := none
deriving DecidableEq

/-- Python truthiness of an optional integer column: `None` and `0` are falsy. -/
def optTruthy : Option Nat → Bool
  | none => false
  | some n => n != 0

/-- Python `x or d` on an optional float: `None` and `0.0` fall back to `d`. -/
def orQ : Option ℚ → ℚ → ℚ
  | none, d => d
  | some r, d => if r = 0 then d else r

/-- Python `abs` on a float, modelled over `ℚ`. -/
def pyAbs (q : ℚ) : ℚ := if q < 0 then -q else q

/-- Python `str.lower()` on a single character (the engine's strings are
ASCII weight-class names and belt ranks). -/
def pyLowerChar (c : Char) : Char :=
  if 65 ≤ c.toNat ∧ c.toNat ≤ 90 then Char.ofNat (c.toNat + 32) else c

/-- Python `str.lower()`. -/
def pyLower (s : String) : String := ⟨s.data.map pyLowerChar⟩

/-! ## Rating replay engine — `app/api/rankings_recalc.py` -/

/-- `rankings_recalc.get_starting_elo`: exact-key lookup in
`{'Black': 2000.0, 'Brown': 1600.0, 'Purple': 1466.67, 'Blue': 1333.33,
'White': 1200.0}` applied to `belt_rank or 'White'`, with dict default
1200.0.  (An empty string is falsy in Python, hence also maps to 'White'.) -/
def get_starting_elo (belt_rank : Option String) : ℚ :=
  let key : String :=
    match belt_rank with
    | none => "White"
    | some s => if s = "" then "White" else s
  if key = "Black" then 2000
  else if key = "Brown" then 1600
  else if key = "Purple" then 1466.67
  else if key = "Blue" then 1333.33
  else if key = "White" then 1200
  else 1200

/-- `rankings_recalc.calculate_elo_change`: K·(actual − expected) with
K = 32 below 10 matches, 24 afterwards.  (The `rating` argument is unused in
the source as well.) -/
def calculate_elo_change (_rating expected actual : ℚ) (matches_played : Nat) : ℚ :=
  let k_factor : ℚ := if matches_played < 10 then 32 else 24
  k_factor * (actual - expected)

/-- Python 3 `round` to nearest integer, ties to even (banker's rounding),
used for the per-match stored deltas `round(change)`. -/
def pyRound (q : ℚ) : Int :=
  let f := Int.floor q
  let r := q - f
  if r < 1 / 2 then f
  else if 1 / 2 < r then f + 1
  else if f % 2 = 0 then f else f + 1

/-- The reset loop at the top of `recalculate_all_elo`: every rating track and
every recorded initial per-class rating is set to the belt baseline. -/
def resetPlayer (p : Player) : Player :=
  let starting_elo := get_starting_elo p.bjj_belt_rank
  { p with
    elo_lightweight := some starting_elo
    elo_middleweight := some starting_elo
    elo_heavyweight := some starting_elo
    elo_rating := some starting_elo
    initial_elo_lightweight := some starting_elo
    initial_elo_middleweight := some starting_elo
    initial_elo_heavyweight := some starting_elo }

/-- The weight-class name the replay resolves for a match:
`weight_classes = {wc.id: wc.name.lower()}` followed by
`weight_classes.get(match.weight_class_id, '').lower()`. -/
def replayWeightClassName (weight_classes : List (Nat × String)) (wid : Nat) : String :=
  pyLower (((weight_classes.map (fun wc => (wc.1, pyLower wc.2))).lookup wid).getD "")

/-- Read a player's current rating for the given (lowercased) weight-class
name, mirroring the three-way branch of `recalculate_all_elo`. -/
def wcRatingOf (p : Player) (weight_class_name : String) : Option ℚ :=
  if weight_class_name = "lightweight" then p.elo_lightweight
  else if weight_class_name = "middleweight" then p.elo_middleweight
  else p.elo_heavyweight

/-- Write a player's rating for the given (lowercased) weight-class name,
mirroring the three-way update branch of `recalculate_all_elo`. -/
def setWcRating (p : Player) (weight_class_name : String) (v : ℚ) : Player :=
  if weight_class_name = "lightweight" then { p with elo_lightweight := some v }
  else if weight_class_name = "middleweight" then { p with elo_middleweight := some v }
  else { p with elo_heavyweight := some v }

/-- In-place mutation of the fetched ORM row, modelled as an id-keyed map
(ids are unique primary keys). -/
def updatePlayer (ps : List Player) (pid : Nat) (f : Player → Player) : List Player :=
  ps.map (fun p => if p.id = pid then f p else p)

/-- The two per-fighter match counters maintained by the replay loop:
`match_counts[player_id][weight_class_name]` and `p4p_match_counts[player_id]`
(both default to 0). -/
structure ReplayCounts where
  match_counts : Nat → String → Nat
  p4p_match_counts : Nat → Nat

/-- The body of the replay loop for one match, up to the first mutation:
returns `none` exactly on the `continue` paths (player lookup failed, weight
class unset or falsy, unresolvable or unrecognised weight-class name; matches
with a null result never enter the loop because the query filters
`Match.result.isnot(None)`), and otherwise the updated player list, the
updated counters, and the two rounded per-class deltas that the loop stores
into the match row. -/
def attemptMatch (e : ℚ → ℚ → ℚ) (weight_classes : List (Nat × String))
    (ps : List Player) (cs : ReplayCounts)
    (aId bId wcId : Option Nat) (result : Option MatchResult) :
    Option (List Player × ReplayCounts × Int × Int) :=
  match result with
  | none => none
  | some res =>
    let player_a? := match aId with
      | none => none
      | some i => ps.find? (fun p => p.id == i)
    let player_b? := match bId with
      | none => none
      | some i => ps.find? (fun p => p.id == i)
    match player_a?, player_b? with
    | some player_a, some player_b =>
      match wcId with
      | none => none
      | some wid =>
        if wid = 0 then none
        else
          let weight_class_name := replayWeightClassName weight_classes wid
          if weight_class_name = "" then none
          else if weight_class_name = "lightweight" ∨ weight_class_name = "middleweight" ∨
              weight_class_name = "heavyweight" then
            let rating_a_wc := orQ (wcRatingOf player_a weight_class_name)
              (get_starting_elo player_a.bjj_belt_rank)
            let rating_b_wc := orQ (wcRatingOf player_b weight_class_name)
              (get_starting_elo player_b.bjj_belt_rank)
            let rating_a_p4p := orQ player_a.elo_rating (get_starting_elo player_a.bjj_belt_rank)
            let rating_b_p4p := orQ player_b.elo_rating (get_starting_elo player_b.bjj_belt_rank)
            let expected_a := e rating_a_wc rating_b_wc
            let expected_b := e rating_b_wc rating_a_wc
            let expected_a_p4p := e rating_a_p4p rating_b_p4p
            let expected_b_p4p := e rating_b_p4p rating_a_p4p
            let actuals : ℚ × ℚ :=
              match res with
              | MatchResult.PLAYER_A_WIN => (1, 0)
              | MatchResult.PLAYER_B_WIN => (0, 1)
              | _ => (1 / 2, 1 / 2)
            let change_a_wc := calculate_elo_change rating_a_wc expected_a actuals.1
              (cs.match_counts player_a.id weight_class_name)
            let change_b_wc := calculate_elo_change rating_b_wc expected_b actuals.2
              (cs.match_counts player_b.id weight_class_name)
            let change_a_p4p := calculate_elo_change rating_a_p4p expected_a_p4p actuals.1
              (cs.p4p_match_counts player_a.id)
            let change_b_p4p := calculate_elo_change rating_b_p4p expected_b_p4p actuals.2
              (cs.p4p_match_counts player_b.id)
            let ps1 := updatePlayer ps player_a.id
              (fun p => setWcRating p weight_class_name (rating_a_wc + change_a_wc))
            let ps2 := updatePlayer ps1 player_b.id
              (fun p => setWcRating p weight_class_name (rating_b_wc + change_b_wc))
            let ps3 := updatePlayer ps2 player_a.id
              (fun p => { p with elo_rating := some (rating_a_p4p + change_a_p4p) })
            let ps4 := updatePlayer ps3 player_b.id
              (fun p => { p with elo_rating := some (rating_b_p4p + change_b_p4p) })
            let cs' : ReplayCounts :=
              { match_counts := fun pid w =>
                  (if pid = player_a.id ∧ w = weight_class_name then 1 else 0) +
                  (if pid = player_b.id ∧ w = weight_class_name then 1 else 0) +
                  cs.match_counts pid w
                p4p_match_counts := fun pid =>
                  (if pid = player_a.id then 1 else 0) +
                  (if pid = player_b.id then 1 else 0) +
                  cs.p4p_match_counts pid }
            some (ps4, cs', pyRound change_a_wc, pyRound change_b_wc)
          else none
    | _, _ => none

/-- One iteration of the replay loop: a skipped match is returned untouched,
a processed one has its stored deltas overwritten. -/
def processMatch (e : ℚ → ℚ → ℚ) (weight_classes : List (Nat × String))
    (st : List Player × ReplayCounts) (m : Match) :
    (List Player × ReplayCounts) × Match :=
  match attemptMatch e weight_classes st.1 st.2
      m.a_player_id m.b_player_id m.weight_class_id m.result with
  | none => (st, m)
  | some (ps', cs', da, db) =>
    ((ps', cs'), { m with a_elo_change := some da, b_elo_change := some db })

/-- The chronological replay loop over the match rows.  The list is the
result of the query `Match.result.isnot(None)` ordered by
`(Event.date, Match.id)`; matches whose result is null are skipped inside
`attemptMatch` instead of being filtered out, which leaves them untouched
exactly as the query does. -/
def replayMatches (e : ℚ → ℚ → ℚ) (weight_classes : List (Nat × String))
    (st : List Player × ReplayCounts) :
    List Match → (List Player × ReplayCounts) × List Match
  | [] => (st, [])
  | m :: ms =>
    ((replayMatches e weight_classes (processMatch e weight_classes st m).1 ms).1,
     (processMatch e weight_classes st m).2 ::
       (replayMatches e weight_classes (processMatch e weight_classes st m).1 ms).2)

/-- The observable outcome of `recalculate_all_elo`: the updated player rows,
the updated match rows, and the two per-fighter counters. -/
structure ReplayResult where
  players : List Player
  matchList : List Match
  match_counts : Nat → String → Nat
  p4p_match_counts : Nat → Nat

/-- `rankings_recalc.recalculate_all_elo`: reset every fighter to the belt
baseline, then replay all matches with non-null result in
`(event date, match id)` order, maintaining per-class and overall (P4P)
ratings and counters.  `e` stands for `calculate_expected_score`
(see the module docstring). -/
def recalculate_all_elo (e : ℚ → ℚ → ℚ) (weight_classes : List (Nat × String))
    (players : List Player) (matchList : List Match) : ReplayResult :=
  let ps0 := players.map resetPlayer
  let cs0 : ReplayCounts :=
    { match_counts := fun _ _ => 0, p4p_match_counts := fun _ => 0 }
  let out := replayMatches e weight_classes (ps0, cs0) matchList
  { players := out.1.1
    matchList := out.2
    match_counts := out.1.2.match_counts
    p4p_match_counts := out.1.2.p4p_match_counts }

/-- One invocation of the replay viewed as a transformation of the persisted
state (player rows, match rows). -/
def replayOnce (e : ℚ → ℚ → ℚ) (weight_classes : List (Nat × String))
    (s : List Player × List Match) : List Player × List Match :=
  let r := recalculate_all_elo e weight_classes s.1 s.2
  (r.players, r.matchList)

/-! ## Bracket state machine — `app/services/tournament_engine.py` and
`app/api/tournament.py` -/

/-- In-place mutation of a match row fetched by primary key, modelled as an
id-keyed map (ids are unique primary keys). -/
def updateRow (ms : List Match) (mid : Nat) (f : Match → Match) : List Match :=
  ms.map (fun m => if m.id = mid then f m else m)

/-- The slot-writing part of the dependent loop in
`TournamentEngine._propagate_result`: write the winner (or, for losers-bracket
feeds, the loser) of the completed match `srcId` into each slot of `dep` whose
dependency points at it.  Python truthiness on `winner_id` / `loser_id` is
preserved. -/
def propagateSlots (winner_id loser_id : Option Nat) (srcId : Nat) (dep : Match) : Match :=
  let dep1 :=
    if dep.depends_on_match_a = some srcId then
      if dep.requires_winner_a ∧ optTruthy winner_id then
        { dep with a_player_id := winner_id }
      else if (¬ dep.requires_winner_a) ∧ optTruthy loser_id then
        { dep with a_player_id := loser_id }
      else dep
    else dep
  if dep1.depends_on_match_b = some srcId then
    if dep1.requires_winner_b ∧ optTruthy winner_id then
      { dep1 with b_player_id := winner_id }
    else if (¬ dep1.requires_winner_b) ∧ optTruthy loser_id then
      { dep1 with b_player_id := loser_id }
    else dep1
  else dep1

/-- The readiness / bye check at the end of the dependent loop in
`_propagate_result`: a dependent with both slots truthy becomes READY; one
with a truthy A slot, an empty B slot and `requires_winner_b = False` is
auto-completed as a bye (result PLAYER_A_WIN, method "Bye", duration 0).
The boolean reports whether the row was appended to `bye_matches_completed`. -/
def readinessCheck (now : Nat) (dep : Match) : Match × Bool :=
  if optTruthy dep.a_player_id ∧ (optTruthy dep.b_player_id ∨ ¬ dep.requires_winner_b) then
    if optTruthy dep.b_player_id then
      ({ dep with match_status := MatchStatus.READY }, false)
    else
      ({ dep with
          match_status := MatchStatus.COMPLETED
          result := some MatchResult.PLAYER_A_WIN
          method := some "Bye"
          duration_seconds := some 0
          completed_at := some now }, true)
  else (dep, false)

/-- Winner and loser of a completed match as determined in
`_propagate_result` (and identically in the undo endpoint): both `None` for
the DRAW/NO_CONTEST else-branch. -/
def winnerLoserOf (m : Match) : Option Nat × Option Nat :=
  match m.result with
  | some MatchResult.PLAYER_A_WIN => (m.a_player_id, m.b_player_id)
  | some MatchResult.PLAYER_B_WIN => (m.b_player_id, m.a_player_id)
  | _ => (none, none)

/-- One dependent-row step of `_propagate_result`'s loop: re-fetch the row,
write slots, run the readiness / bye check, store the row, and record it for
recursive propagation when it was auto-completed as a bye. -/
def propagateStep (now : Nat) (winner_id loser_id : Option Nat) (srcId : Nat)
    (st : List Match × List Nat) (did : Nat) : List Match × List Nat :=
  match st.1.find? (fun d => d.id == did) with
  | none => st
  | some dep =>
    let dep1 := propagateSlots winner_id loser_id srcId dep
    let checked := readinessCheck now dep1
    (updateRow st.1 did (fun _ => checked.1),
     if checked.2 then st.2 ++ [did] else st.2)

/-- `TournamentEngine._propagate_result`, written with an explicit work queue:
processing a match propagates into its dependents and then recursively
propagates every dependent that was auto-completed as a bye, in order
(depth-first, exactly the source's recursion order).  The source recursion
terminates because the dependency graph is acyclic; the embedding carries
fuel that callers set above any possible chain length.  The final
`_activate_pending_rounds_with_ready_matches` call reads match rows but
writes only `BracketRound` rows, which are outside this embedding. -/
def propagate_result_aux (now : Nat) : Nat → List Match → List Nat → List Match
  | _, ms, [] => ms
  | 0, ms, _ :: _ => ms
  | fuel + 1, ms, mid :: queue =>
    match ms.find? (fun m => m.id == mid) with
    | none => propagate_result_aux now fuel ms queue
    | some m =>
      if m.result = none ∨ m.result = some MatchResult.NO_CONTEST then
        propagate_result_aux now fuel ms queue
      else
        let wl := winnerLoserOf m
        let depIds := (ms.filter (fun d =>
          d.depends_on_match_a = some mid ∨ d.depends_on_match_b = some mid)).map (fun d => d.id)
        let stepped := depIds.foldl (propagateStep now wl.1 wl.2 mid) (ms, [])
        propagate_result_aux now fuel stepped.1 (stepped.2 ++ queue)

/-- `TournamentEngine.update_match_result` (raises ValueError when the match
id does not exist, modelled as `none`): write result, method, duration, mark
COMPLETED with `completed_at = now`, then propagate.  The trailing
`_check_round_completion` call is skipped when `bracket_round_id` is null;
when it runs it mutates only `BracketRound` rows, except for the dynamically
generated formats (Swiss, round robin continuation, guaranteed matches,
double elimination), whose round generation is outside this embedding — for
single elimination `_generate_next_round` is explicitly a no-op. -/
def update_match_result (now : Nat) (match_id : Nat) (result : MatchResult)
    (method : Option String) (duration_seconds : Option Nat)
    (ms : List Match) : Option (List Match) :=
  match ms.find? (fun m => m.id == match_id) with
  | none => none
  | some _ =>
    let ms1 := updateRow ms match_id (fun m =>
      { m with
        result := some result
        method := method
        duration_seconds := duration_seconds
        match_status := MatchStatus.COMPLETED
        completed_at := some now })
    some (propagate_result_aux now (ms1.length + 1) ms1 [match_id])

/-- The dependent-clearing pass of the undo endpoint
(`tournament.undo_match_result`): in every match that depends on the undone
match, a slot whose value is `in [winner_id, loser_id]` is cleared and the
dependent is reset to PENDING. -/
def undoDepClear (mid : Nat) (winner_id loser_id : Option Nat) (dep : Match) : Match :=
  if dep.depends_on_match_a = some mid ∨ dep.depends_on_match_b = some mid then
    let dep1 :=
      if dep.depends_on_match_a = some mid ∧
          (dep.a_player_id = winner_id ∨ dep.a_player_id = loser_id) then
        { dep with a_player_id := none, match_status := MatchStatus.PENDING }
      else dep
    if dep1.depends_on_match_b = some mid ∧
        (dep1.b_player_id = winner_id ∨ dep1.b_player_id = loser_id) then
      { dep1 with b_player_id := none, match_status := MatchStatus.PENDING }
    else dep1
  else dep

/-- The field-clearing step of the undo endpoint on the undone match itself. -/
def undoClearMatch (m : Match) : Match :=
  { m with
    result := none
    method := none
    duration_seconds := none
    a_elo_change := none
    b_elo_change := none
    completed_at := none }

/-- The status reset of the undo endpoint: READY when both slots are truthy,
else PENDING. -/
def undoResetStatus (m : Match) : Match :=
  { m with match_status :=
      if optTruthy m.a_player_id ∧ optTruthy m.b_player_id then MatchStatus.READY
      else MatchStatus.PENDING }

/-- `tournament.undo_match_result` (the DELETE result endpoint): 404 when the
match does not exist, 400 when it has no result (both modelled as `none`);
otherwise clear dependent slots populated from this match's winner or loser,
clear the match's own result fields and reset its status, and finally invoke
`recalculate_all_elo` (the replay mutates only player ratings and per-match
delta columns).  The match list is maintained in the replay query's
`(event date, id)` order. -/
def undo_match_result (e : ℚ → ℚ → ℚ) (weight_classes : List (Nat × String))
    (ps : List Player) (ms : List Match) (match_id : Nat) :
    Option (List Player × List Match) :=
  match ms.find? (fun m => m.id == match_id) with
  | none => none
  | some m =>
    if m.result = none then none
    else
      let wl := winnerLoserOf m
      let ms1 := ms.map (fun dep => undoDepClear match_id wl.1 wl.2 dep)
      let ms2 := updateRow ms1 match_id (fun x => undoResetStatus (undoClearMatch x))
      let r := recalculate_all_elo e weight_classes ps ms2
      some (r.players, r.matchList)

/-! ## Bracket generation — `_generate_swiss`, `_generate_single_elimination` -/

/-- `TournamentEngine._generate_swiss`: only round 1 is generated up front.
Contested matches pair `participants[i]` with `participants[n-1-i]` for
`i < n // 2` (status READY); when `n` is odd the source then creates an
auto-completed bye match (result PLAYER_A_WIN, method "Bye") for
`participants[-1]`.  Default in-order seeding is modelled (the
`seeding_method="random"` shuffle is configuration-dependent); ids are the
database's sequential assignment in creation order. -/
def generate_swiss (wc : Option Nat) (participants : List Nat) (now : Nat) : List Match :=
  let n := participants.length
  let num_matches := n / 2
  let contested := (List.range num_matches).map (fun i =>
    { id := i + 1
      weight_class_id := wc
      bracket_round_id := some 1
      a_player_id := participants.get? i
      b_player_id := participants.get? (n - 1 - i)
      match_number := some (i + 1)
      match_status := MatchStatus.READY : Match })
  let byes :=
    if n % 2 = 1 then
      [{ id := num_matches + 1
         weight_class_id := wc
         bracket_round_id := some 1
         a_player_id := participants.getLast?
         b_player_id := none
         match_number := some (num_matches + 1)
         match_status := MatchStatus.COMPLETED
         result := some MatchResult.PLAYER_A_WIN
         method := some "Bye"
         completed_at := some now : Match }]
    else []
  contested ++ byes

/-- `math.ceil(math.log2(n))`: the smallest `k` with `n ≤ 2 ^ k` (callers
guarantee `n ≥ 2` via the TooFewParticipants guard). -/
def ceilLog2 (n : Nat) : Nat :=
  ((List.range (n + 1)).find? (fun k => n ≤ 2 ^ k)).getD 0

/-- `TournamentEngine._generate_single_elimination` followed by its
`_propagate_byes` call, returning the created match rows.
`num_rounds = ceil(log2 n)`; round 1 creates `ceil(n/2)` matches consuming
participants pairwise (READY when both slots filled, PENDING otherwise) and
then attempts `2^(num_rounds-1) - ceil(n/2)` bye matches, each guarded by
`participant_idx < num_participants`; each later round `r` creates
`2^(num_rounds-r)` TBD matches whose slots depend on consecutive pairs of the
previous round's matches (`requires_winner` true on both slots).  Round rows
carry sequential ids, so round `r`'s `bracket_round_id` is `r`; match ids are
sequential in creation order.  Default in-order seeding is modelled. -/
def generate_single_elimination (wc : Option Nat) (participants : List Nat) (now : Nat) :
    List Match :=
  let n := participants.length
  let num_rounds := ceilLog2 n
  let first_round_matches_needed := (n + 1) / 2
  let contested := (List.range first_round_matches_needed).map (fun k =>
    let a := participants.get? (2 * k)
    let b := participants.get? (2 * k + 1)
    { id := k + 1
      weight_class_id := wc
      bracket_round_id := some 1
      a_player_id := a
      b_player_id := b
      match_number := some (k + 1)
      match_status := if a.isSome ∧ b.isSome then MatchStatus.READY
        else MatchStatus.PENDING : Match })
  let num_byes := 2 ^ (num_rounds - 1) - first_round_matches_needed
  let byes := (List.range num_byes).filterMap (fun j =>
    if 2 * first_round_matches_needed + j < n then
      some { id := first_round_matches_needed + j + 1
             weight_class_id := wc
             bracket_round_id := some 1
             a_player_id := participants.get? (2 * first_round_matches_needed + j)
             b_player_id := none
             match_number := some (first_round_matches_needed + j + 1)
             match_status := MatchStatus.COMPLETED
             result := some MatchResult.PLAYER_A_WIN
             method := some "Bye"
             completed_at := some now : Match }
    else none)
  let round1 := contested ++ byes
  let build := (List.range (num_rounds - 1)).foldl
    (fun (st : List Nat × Nat × List Match) i =>
      let r := i + 2
      let c := 2 ^ (num_rounds - r)
      let ms := (List.range c).map (fun mnum =>
        { id := st.2.1 + mnum
          weight_class_id := wc
          bracket_round_id := some r
          a_player_id := none
          b_player_id := none
          match_number := some (mnum + 1)
          match_status := MatchStatus.PENDING
          depends_on_match_a := st.1.get? (2 * mnum)
          depends_on_match_b := st.1.get? (2 * mnum + 1) : Match })
      (ms.map (fun m => m.id), st.2.1 + c, st.2.2 ++ ms))
    (round1.map (fun m => m.id), round1.length + 1, round1)
  let allMatches := build.2.2
  let byeIds := (allMatches.filter (fun m =>
    m.bracket_round_id = some 1 ∧ m.result = some MatchResult.PLAYER_A_WIN ∧
      m.method = some "Bye")).map (fun m => m.id)
  propagate_result_aux now (allMatches.length + 1) allMatches byeIds

/-! ## Format recommendation — `calculate_match_count`, `recommend_format` -/

/-- `TournamentEngine.calculate_match_count`.  For GUARANTEED_MATCHES the
source computes `matches_per_fighter = swiss_rounds if swiss_rounds else 3`
(Python truthiness: 0 falls back to 3). -/
def calculate_match_count (format_type : TournamentFormat) (num_participants : Nat)
    (swiss_rounds : Nat) : Nat :=
  if num_participants < 2 then 0
  else match format_type with
  | TournamentFormat.SINGLE_ELIMINATION => num_participants - 1
  | TournamentFormat.DOUBLE_ELIMINATION =>
    if num_participants < 8 then 0
    else (num_participants - 1) + (num_participants - 2) + 1
  | TournamentFormat.ROUND_ROBIN => num_participants * (num_participants - 1) / 2
  | TournamentFormat.SWISS => (num_participants / 2) * swiss_rounds
  | TournamentFormat.GUARANTEED_MATCHES =>
    let matches_per_fighter := if swiss_rounds ≠ 0 then swiss_rounds else 3
    num_participants * matches_per_fighter / 2

/-- The per-recommendation time estimate inside
`TournamentEngine.recommend_format`: `matches × (duration + 2) − 2` with a
2-minute gap between matches (0 when there are no matches; entries with a
zero match count are dropped before this point by the `continue`). -/
def recommend_estimated_minutes (match_count : Nat) (match_duration_minutes : Nat) : Nat :=
  if 0 < match_count then match_count * (match_duration_minutes + 2) - 2 else 0

/-! ## Weight-aware guaranteed pairing —
`TournamentEngine._weight_aware_guaranteed_pairing` -/

/-- One fighter's record in the standings dict passed to the pairing
functions (`{player_id: {wins, losses, draws, points}}`). -/
structure Standing where
  wins : Nat
  losses : Nat
  draws : Nat
  points : ℚ
deriving DecidableEq

/-- One fighter's entry in the `player_data` map built at the top of
`_weight_aware_guaranteed_pairing`: `weight` is `player.weight or 0`,
`weight_class_id` comes from the fighter's Entry for the event
(`entry.weight_class_id if entry else None`), `elo` is
`player.elo_rating or 1500`. -/
structure PData where
  weight : ℚ
  weight_class_id : Option Nat
  elo : ℚ
deriving DecidableEq

/-- Build `player_data` for every player id in the standings whose Player row
exists.  `entries` maps player id to the weight-class id of their Entry. -/
def build_player_data (players : List Player) (entries : List (Nat × Option Nat))
    (standings : List (Nat × Standing)) : List (Nat × PData) :=
  standings.filterMap (fun s =>
    (players.find? (fun p => p.id == s.1)).map (fun p =>
      (s.1,
       { weight := orQ p.weight 0
         weight_class_id := (entries.lookup s.1).getD none
         elo := orQ p.elo_rating 1500 })))

/-- `player_data.get(pid, {}).get('weight', 0)`. -/
def weightOf (pd : List (Nat × PData)) (pid : Nat) : ℚ :=
  ((pd.lookup pid).map (fun d => d.weight)).getD 0

/-- `player_data.get(pid, {}).get('weight_class_id')`. -/
def weightClassOf (pd : List (Nat × PData)) (pid : Nat) : Option Nat :=
  ((pd.lookup pid).map (fun d => d.weight_class_id)).getD none

/-- `player_data.get(pid, {}).get('elo', 1500)`. -/
def eloOf (pd : List (Nat × PData)) (pid : Nat) : ℚ :=
  ((pd.lookup pid).map (fun d => d.elo)).getD 1500

/-- Inner `is_valid_weight_match` with `get_weight_limit` inlined: legal when
either weight is unknown (recorded as 0); no limit when both fighters exceed
200 lb; otherwise the 30 lb gap applies. -/
def is_valid_weight_match (pd : List (Nat × PData)) (p1 p2 : Nat) : Bool :=
  let w1 := weightOf pd p1
  let w2 := weightOf pd p2
  if w1 = 0 ∨ w2 = 0 then true
  else
    let weight_diff := pyAbs (w1 - w2)
    let is_heavy1 := w1 > 200
    let is_heavy2 := w2 > 200
    if is_heavy1 ∧ is_heavy2 then true
    else decide (weight_diff ≤ 30)

/-- Inner `same_weight_class`: `wc1 is not None and wc1 == wc2`. -/
def same_weight_class (pd : List (Nat × PData)) (p1 p2 : Nat) : Bool :=
  decide ((weightClassOf pd p1).isSome = true ∧ weightClassOf pd p1 = weightClassOf pd p2)

/-- Inner `get_match_weight_class`: the heavier fighter's weight class. -/
def get_match_weight_class (pd : List (Nat × PData)) (p1 p2 : Nat) : Option Nat :=
  if weightOf pd p1 ≥ weightOf pd p2 then weightClassOf pd p1 else weightClassOf pd p2

/-- The `rematch_counts` dict: for each ordered pair (p1 ∈ standings,
p2 ∈ matchup_history[p1]) the unordered pair's bucket gains 1 (a symmetric
history therefore counts each pair twice). -/
def rematch_count (standings : List (Nat × Standing))
    (matchup_history : List (Nat × List Nat)) (a b : Nat) : Nat :=
  (if (standings.any (fun s => s.1 == a)) ∧ b ∈ (matchup_history.lookup a).getD []
    then 1 else 0) +
  (if (standings.any (fun s => s.1 == b)) ∧ a ∈ (matchup_history.lookup b).getD []
    then 1 else 0)

/-- `x` may precede `y` in the descending stable sort on the key
`(points, wins, elo)`: true iff `y`'s key is lexicographically ≤ `x`'s. -/
def sortKeyGe (pd : List (Nat × PData)) (x y : Nat × Standing) : Bool :=
  decide (y.2.points < x.2.points ∨
    (y.2.points = x.2.points ∧ (y.2.wins < x.2.wins ∨
      (y.2.wins = x.2.wins ∧ eloOf pd y.1 ≤ eloOf pd x.1))))

/-- Stable insertion for `pySortedDesc`. -/
def insertStable {α : Type} (r : α → α → Bool) (x : α) : List α → List α
  | [] => [x]
  | y :: ys => if r x y then x :: y :: ys else y :: insertStable r x ys

/-- `sorted(..., key=..., reverse=True)` modelled as a stable insertion sort:
with `r x y` meaning "x may precede y", equal keys keep their original
relative order, exactly Python's stable sort semantics. -/
def pySortedDesc {α : Type} (r : α → α → Bool) : List α → List α
  | [] => []
  | x :: xs => insertStable r x (pySortedDesc r xs)

/-- The four candidate passes for one unpaired fighter, each scanning the
later entries of the sorted order (`range(i+1, len(player_ids))`), skipping
already-paired fighters, and stopping at the first hit:
1. same weight class, weight-legal, rematch count below the cap;
2. cross weight class, weight-legal, rematch count below the cap;
3. same weight class, weight-legal (cap relaxed);
4. cross weight class, weight-legal (cap relaxed). -/
def findOpponent (pd : List (Nat × PData)) (standings : List (Nat × Standing))
    (matchup_history : List (Nat × List Nat)) (max_rematches : Nat)
    (p : Nat) (rest : List Nat) (paired : List Nat) : Option Nat :=
  match rest.find? (fun c => (!(paired.contains c)) && same_weight_class pd p c &&
      is_valid_weight_match pd p c &&
      decide (rematch_count standings matchup_history p c < max_rematches)) with
  | some c => some c
  | none =>
    match rest.find? (fun c => (!(paired.contains c)) && (!(same_weight_class pd p c)) &&
        is_valid_weight_match pd p c &&
        decide (rematch_count standings matchup_history p c < max_rematches)) with
    | some c => some c
    | none =>
      match rest.find? (fun c => (!(paired.contains c)) && same_weight_class pd p c &&
          is_valid_weight_match pd p c) with
      | some c => some c
      | none =>
        rest.find? (fun c => (!(paired.contains c)) && (!(same_weight_class pd p c)) &&
          is_valid_weight_match pd p c)

/-- The pairing loop of `_weight_aware_guaranteed_pairing` over the sorted
player ids.  A found opponent yields a contested pairing assigned to the
heavier fighter's weight class (the Python guard `if opponent_id:` also sends
a fighter to the bye branch when the found opponent's id is the falsy 0); a
fighter with no candidate receives a bye assigned to their own weight class.
There is deliberately no fallback that exceeds the weight limits. -/
def wagLoop (pd : List (Nat × PData)) (standings : List (Nat × Standing))
    (matchup_history : List (Nat × List Nat)) (max_rematches : Nat) :
    List Nat → List Nat → List (Nat × Option Nat × Option Nat)
  | [], _ => []
  | p :: rest, paired =>
    if p ∈ paired then wagLoop pd standings matchup_history max_rematches rest paired
    else
      match findOpponent pd standings matchup_history max_rematches p rest paired with
      | some opponent_id =>
        if opponent_id ≠ 0 then
          (p, some opponent_id, get_match_weight_class pd p opponent_id) ::
            wagLoop pd standings matchup_history max_rematches rest
              (p :: opponent_id :: paired)
        else
          (p, none, weightClassOf pd p) ::
            wagLoop pd standings matchup_history max_rematches rest (p :: paired)
      | none =>
        (p, none, weightClassOf pd p) ::
          wagLoop pd standings matchup_history max_rematches rest (p :: paired)

/-- `TournamentEngine._weight_aware_guaranteed_pairing`: build player data,
sort the standings by (points desc, wins desc, elo desc) stably, and run the
four-pass pairing loop.  Returns `(player_a_id, player_b_id?, weight_class_id?)`
tuples, `player_b_id = none` encoding a bye. -/
def weight_aware_guaranteed_pairing (players : List Player)
    (entries : List (Nat × Option Nat)) (standings : List (Nat × Standing))
    (matchup_history : List (Nat × List Nat)) (max_rematches : Nat) :
    List (Nat × Option Nat × Option Nat) :=
  let pd := build_player_data players entries standings
  let sorted_players := pySortedDesc (sortKeyGe pd) standings
  wagLoop pd standings matchup_history max_rematches
    (sorted_players.map (fun s => s.1)) []

/-- The weight-legality predicate as the specification's §4.3.6 claim words
it, with a missing weight recorded as 0 as in the source: legal when BOTH
weights are missing, or both fighters exceed 200 lb, or the gap is ≤ 30 lb. -/
def weight_legal_claimed (w1 w2 : ℚ) : Prop :=
  (w1 = 0 ∧ w2 = 0) ∨ (200 < w1 ∧ 200 < w2) ∨ |w1 - w2| ≤ 30

/-- The weight-legality predicate the source actually enforces
(`is_valid_weight_match`), stated declaratively: legal when EITHER weight is
missing (recorded as 0), or both fighters exceed 200 lb, or the gap
is ≤ 30 lb. -/
def weight_legal_spec (w1 w2 : ℚ) : Prop :=
  w1 = 0 ∨ w2 = 0 ∨ (200 < w1 ∧ 200 < w2) ∨ |w1 - w2| ≤ 30

/-! ## Claim C1 — NoContest in the rating replay -/

/-- Two fighters for the C1 scenario: a Black belt and a White belt. -/
def c1Players : List Player :=
  [{ id := 1, bjj_belt_rank := some "Black" },
   { id := 2, bjj_belt_rank := some "White" }]

/-- A single completed match between them with result NO_CONTEST, fought in
weight class 1 ("Lightweight"), with no stored deltas. -/
def c1Match : Match :=
  { id := 1
    a_player_id := some 1
    b_player_id := some 2
    weight_class_id := some 1
    result := some MatchResult.NO_CONTEST
    match_status := MatchStatus.COMPLETED }

/-- C1 (code bug in `recalculate_all_elo`): the claim says a NoContest match
is skipped entirely by the rating replay — no match-count change, no stored
delta.  The replay query keeps every non-null result and the result branch's
`else` arm treats NO_CONTEST as a 0.5/0.5 draw, so for any expected-score
function the replay of this single NO_CONTEST match increments both fighters'
overall (P4P) and per-class match counts and overwrites both stored per-match
deltas. -/
theorem c1_no_contest_is_replayed (e : ℚ → ℚ → ℚ) :
    (recalculate_all_elo e [(1, "Lightweight")] c1Players [c1Match]).p4p_match_counts 1 = 1 ∧
    (recalculate_all_elo e [(1, "Lightweight")] c1Players [c1Match]).p4p_match_counts 2 = 1 ∧
    (recalculate_all_elo e [(1, "Lightweight")] c1Players [c1Match]).match_counts 1
      "lightweight" = 1 ∧
    (recalculate_all_elo e [(1, "Lightweight")] c1Players [c1Match]).match_counts 2
      "lightweight" = 1 ∧
    ((recalculate_all_elo e [(1, "Lightweight")] c1Players [c1Match]).matchList.map
      (fun m => m.a_elo_change.isSome && m.b_elo_change.isSome)) = [true] :=
  ⟨rfl, rfl, rfl, rfl, rfl⟩

/-! ## Claim C3 — the starting-ELO lookup used by the replay -/

/-- C3 counterexample: the claim says the replay's starting-ELO lookup is
case-insensitive (so "black" ↦ 2000), returns the Blue baseline for an
unknown belt, and maps Purple to 1467.  In `rankings_recalc.get_starting_elo`
the lookup is exact-case ("black" ↦ 1200), an unknown belt gets the dict
default 1200 (the White baseline, not Blue's 1333.33), and Purple maps
to 1466.67. -/
theorem c3_counterexample :
    get_starting_elo (some "black") = 1200 ∧ ¬ ((1200 : ℚ) = 2000) ∧
    get_starting_elo (some "Red") = 1200 ∧ ¬ ((1200 : ℚ) = 1333.33) ∧
    get_starting_elo (some "Purple") = 1466.67 ∧ ¬ ((1466.67 : ℚ) = 1467) :=
  ⟨rfl, by norm_num, rfl, by norm_num, rfl, by norm_num⟩

/-- C3 (amended): the starting-ELO lookup used to reset fighters at the start
of the rating replay returns {Black 2000, Brown 1600, Purple 1466.67,
Blue 1333.33, White 1200}, matches the belt string exactly (case-sensitively),
and returns the White baseline 1200 for an unknown or missing belt. -/
theorem c3_starting_elo_table (s : String)
    (h : s ∉ ["Black", "Brown", "Purple", "Blue", "White"]) :
    get_starting_elo (some "Black") = 2000 ∧
    get_starting_elo (some "Brown") = 1600 ∧
    get_starting_elo (some "Purple") = 1466.67 ∧
    get_starting_elo (some "Blue") = 1333.33 ∧
    get_starting_elo (some "White") = 1200 ∧
    get_starting_elo none = 1200 ∧
    get_starting_elo (some s) = 1200 := by
  simp only [List.mem_cons, List.not_mem_nil, or_false, not_or] at h
  obtain ⟨h1, h2, h3, h4, h5⟩ := h
  refine ⟨rfl, rfl, rfl, rfl, rfl, rfl, ?_⟩
  by_cases hs : s = ""
  · subst hs; rfl
  · simp [get_starting_elo, hs, h1, h2, h3, h4, h5]

/-- Witness for `c3_starting_elo_table` at the concrete unknown belt
string "black". -/
theorem c3_starting_elo_table_witness :
    "black" ∉ ["Black", "Brown", "Purple", "Blue", "White"] ∧
    (get_starting_elo (some "Black") = 2000 ∧
     get_starting_elo (some "Brown") = 1600 ∧
     get_starting_elo (some "Purple") = 1466.67 ∧
     get_starting_elo (some "Blue") = 1333.33 ∧
     get_starting_elo (some "White") = 1200 ∧
     get_starting_elo none = 1200 ∧
     get_starting_elo (some "black") = 1200) :=
  ⟨by decide, c3_starting_elo_table "black" (by decide)⟩

/-! ## Claim C4 — Swiss round-1 bye assignment -/

/-- Five checked-in participants for the Swiss scenario of the
specification's scenario 3. -/
def c4Participants : List Nat := [1, 2, 3, 4, 5]

/-- C4 (code bug in `_generate_swiss`): the claim (and spec scenario 3) says
the odd-field round-1 bye goes to `participants[⌊n/2⌋]` — here participant 3
— a fighter in no contested match.  The source pairs
`participants[i]` vs `participants[n-1-i]` as claimed, but then hands the bye
to `participants[-1]` (participant 5), who is already fighter B of contested
match 1, while middle participant 3 appears in no round-1 match at all. -/
theorem c4_swiss_round1_bye :
    (generate_swiss none c4Participants 7).map
        (fun m => (m.a_player_id, m.b_player_id, m.method, m.match_status)) =
      [(some 1, some 5, none, MatchStatus.READY),
       (some 2, some 4, none, MatchStatus.READY),
       (some 5, none, some "Bye", MatchStatus.COMPLETED)] ∧
    c4Participants.get? (c4Participants.length / 2) = some 3 ∧
    ((generate_swiss none c4Participants 7).all
      (fun m => (m.a_player_id != some 3) && (m.b_player_id != some 3))) = true := by
  decide

/-! ## Claim C9 — format match-count and time-estimate formulas -/

/-- C9: for every participant count n ≥ 2 and positive rounds /
matches-per-fighter parameter, the recommendation engine's match counts are
SingleElim = n−1, DoubleElim = (n−1)+(n−2)+1 for n ≥ 8 and 0 (excluded)
below 8, RoundRobin = n(n−1)/2, Swiss = ⌊n/2⌋·rounds,
GuaranteedMatches = ⌊n·mpf/2⌋, and the estimated event time for a positive
match count is matches·(duration+2) − 2 minutes. -/
theorem c9_match_count_formulas (n r dur c : Nat) (hn : 2 ≤ n) (hr : 1 ≤ r) (hc : 0 < c) :
    calculate_match_count TournamentFormat.SINGLE_ELIMINATION n r = n - 1 ∧
    (8 ≤ n →
      calculate_match_count TournamentFormat.DOUBLE_ELIMINATION n r =
        (n - 1) + (n - 2) + 1) ∧
    (n < 8 → calculate_match_count TournamentFormat.DOUBLE_ELIMINATION n r = 0) ∧
    calculate_match_count TournamentFormat.ROUND_ROBIN n r = n * (n - 1) / 2 ∧
    calculate_match_count TournamentFormat.SWISS n r = (n / 2) * r ∧
    calculate_match_count TournamentFormat.GUARANTEED_MATCHES n r = n * r / 2 ∧
    recommend_estimated_minutes c dur = c * (dur + 2) - 2 := by
  have hn' : ¬ n < 2 := by omega
  have hr' : r ≠ 0 := by omega
  refine ⟨?_, ?_, ?_, ?_, ?_, ?_, ?_⟩
  · simp [calculate_match_count, hn']
  · intro h8
    simp [calculate_match_count, hn', Nat.not_lt.mpr h8]
  · intro h8
    simp [calculate_match_count, hn', h8]
  · simp [calculate_match_count, hn']
  · simp [calculate_match_count, hn']
  · simp [calculate_match_count, hn', hr']
  · simp [recommend_estimated_minutes, hc]

/-- Witness for `c9_match_count_formulas` at n = 9, rounds = 3,
duration = 10, match count 5. -/
theorem c9_match_count_formulas_witness :
    2 ≤ 9 ∧ 1 ≤ 3 ∧ 0 < 5 ∧
    (calculate_match_count TournamentFormat.SINGLE_ELIMINATION 9 3 = 9 - 1 ∧
     (8 ≤ 9 →
       calculate_match_count TournamentFormat.DOUBLE_ELIMINATION 9 3 =
         (9 - 1) + (9 - 2) + 1) ∧
     (9 < 8 → calculate_match_count TournamentFormat.DOUBLE_ELIMINATION 9 3 = 0) ∧
     calculate_match_count TournamentFormat.ROUND_ROBIN 9 3 = 9 * (9 - 1) / 2 ∧
     calculate_match_count TournamentFormat.SWISS 9 3 = (9 / 2) * 3 ∧
     calculate_match_count TournamentFormat.GUARANTEED_MATCHES 9 3 = 9 * 3 / 2 ∧
     recommend_estimated_minutes 5 10 = 5 * (10 + 2) - 2) :=
  ⟨by decide, by decide, by decide,
   c9_match_count_formulas 9 3 10 5 (by decide) (by decide) (by decide)⟩

/-! ## Claim C6 — six-participant single elimination -/

/-- Six checked-in participants. -/
def c6Participants : List Nat := [1, 2, 3, 4, 5, 6]

/-- The generated six-player single-elimination bracket: round 1 holds three
contested matches (1v2, 3v4, 5v6), round 2 holds matches 4 and 5, the final
is match 6. -/
def c6Bracket : List Match := generate_single_elimination none c6Participants 0

/-- C6 (code bug in `_generate_single_elimination` / `_propagate_result`):
the claim (and the spec's scenario 2 test) says that after all three round-1
matches complete, every round-2 match is Ready or an auto-completed bye.
With 6 participants the generator creates round 2 with two matches fed by
only three round-1 matches, so round-2 match 2 (id 5) has a null B-dependency
with `requires_winner_b = true`: after round 1 completes it holds the match-3
winner in slot A but stays PENDING with slot B null — nothing can ever make
it Ready or a bye.  Round-2 match 1 (id 4) does become Ready. -/
theorem c6_six_player_stuck :
    ((update_match_result 10 1 MatchResult.PLAYER_A_WIN (some "Sub") (some 60)
        c6Bracket).bind
      (fun s1 => (update_match_result 11 2 MatchResult.PLAYER_A_WIN (some "Sub") (some 60)
          s1).bind
        (fun s2 => update_match_result 12 3 MatchResult.PLAYER_A_WIN (some "Sub") (some 60)
          s2))).map
      (fun ms =>
        ((ms.find? (fun m => m.id == 4)).map
           (fun m => (m.match_status, m.a_player_id, m.b_player_id)),
         (ms.find? (fun m => m.id == 5)).map
           (fun m => (m.match_status, m.a_player_id, m.b_player_id,
             m.depends_on_match_b, m.requires_winner_b, m.method)))) =
      some
        (some (MatchStatus.READY, some 1, some 3),
         some (MatchStatus.PENDING, some 5, none, none, true, none)) := by
  rfl

/-! ## Claim C5 — update-then-undo round trip -/

/-- Two fighters for the undo scenario. -/
def c5Players : List Player :=
  [{ id := 1, bjj_belt_rank := some "White" },
   { id := 2, bjj_belt_rank := some "White" }]

/-- A ready match between fighters 1 and 2. -/
def c5M1 : Match :=
  { id := 1, a_player_id := some 1, b_player_id := some 2,
    match_status := MatchStatus.READY }

/-- A dependent bye-forward match: slot A takes the winner of match 1,
slot B is a structural bye (`requires_winner_b = false`). -/
def c5M2 : Match :=
  { id := 2, depends_on_match_a := some 1, requires_winner_b := false }

/-- The pre-update state. -/
def c5Initial : List Match := [c5M1, c5M2]

/-- C5 counterexample: the claim says update-then-undo restores the match and
all dependents — including dependents auto-completed as byes during
propagation — to their exact pre-update state.  Completing match 1 populates
dependent match 2 and auto-completes it as a bye; the undo clears match 2's
populated slot and resets it to Pending, but leaves its bye result, method,
duration and completedAt in place, so the final state differs from the
pre-update state. -/
theorem c5_counterexample :
    ((update_match_result 100 1 MatchResult.PLAYER_A_WIN (some "Armbar") (some 90)
        c5Initial).bind
      (fun msU => (undo_match_result (fun _ _ => 1 / 2) [] c5Players msU 1).map
        (fun r => r.2))) =
      some [c5M1,
        { c5M2 with
            result := some MatchResult.PLAYER_A_WIN
            method := some "Bye"
            duration_seconds := some 0
            completed_at := some 100 }] ∧
    ¬ ([c5M1,
        { c5M2 with
            result := some MatchResult.PLAYER_A_WIN
            method := some "Bye"
            duration_seconds := some 0
            completed_at := some 100 }] = c5Initial) := by
  decide

/-! ## Claim C8 — update on a match with neither slot set -/

/-- A bracket-less match with neither fighter slot set. -/
def c8Match : Match := { id := 1 }

/-- C8 counterexample: the claim says updating the result of a match with
neither slot set fails with InvalidState and leaves the match unchanged.
`update_match_result` performs no such validation: it records the result and
marks the match Completed. -/
theorem c8_counterexample :
    update_match_result 50 1 MatchResult.PLAYER_A_WIN (some "Points") (some 120) [c8Match] =
      some [{ c8Match with
        result := some MatchResult.PLAYER_A_WIN
        method := some "Points"
        duration_seconds := some 120
        match_status := MatchStatus.COMPLETED
        completed_at := some 50 }] ∧
    ¬ ([{ c8Match with
        result := some MatchResult.PLAYER_A_WIN
        method := some "Points"
        duration_seconds := some 120
        match_status := MatchStatus.COMPLETED
        completed_at := some 50 }] = [c8Match]) := by
  decide

/-! ## Claim C7 — weight-aware pairing legality -/

/-- Fighter 1 has no recorded weight; fighter 2 weighs 250 lb. -/
def c7Players : List Player := [{ id := 1 }, { id := 2, weight := some 250 }]

/-- Both fighters are entered in weight class 5. -/
def c7Entries : List (Nat × Option Nat) := [(1, some 5), (2, some 5)]

/-- Fresh standings (no results yet). -/
def c7Standings : List (Nat × Standing) :=
  [(1, { wins := 0, losses := 0, draws := 0, points := 0 }),
   (2, { wins := 0, losses := 0, draws := 0, points := 0 })]

/-- C7 counterexample: the claim's weight-legality predicate declares a pair
legal on missing weights only when BOTH are missing, so a pairing of an
unknown-weight fighter with a 250 lb fighter (gap 250 > 30, not both over
200) violates it.  The source's `is_valid_weight_match` accepts a pair as
soon as EITHER weight is missing, and the pairing engine duly produces
exactly this contested pairing. -/
theorem c7_counterexample :
    weight_aware_guaranteed_pairing c7Players c7Entries c7Standings [] 1 =
      [(1, some 2, some 5)] ∧
    weightOf (build_player_data c7Players c7Entries c7Standings) 1 = 0 ∧
    weightOf (build_player_data c7Players c7Entries c7Standings) 2 = 250 ∧
    ¬ weight_legal_claimed 0 250 := by
  refine ⟨by decide, by decide, by decide, ?_⟩
  simp only [weight_legal_claimed, not_or, not_and, not_le]
  norm_num

/-! ## Claim C2 — idempotence of the rating replay -/

/-- Reprocessing a match from the same state is idempotent: the loop body
never reads the stored deltas, so the second run takes the same skip-or-
process decision and rewrites the same deltas. -/
theorem processMatch_idem (e : ℚ → ℚ → ℚ) (w : List (Nat × String))
    (st : List Player × ReplayCounts) (m : Match) :
    processMatch e w st (processMatch e w st m).2 = processMatch e w st m := by
  unfold processMatch
  cases hA : attemptMatch e w st.1 st.2 m.a_player_id m.b_player_id m.weight_class_id
      m.result with
  | none => simp [hA]
  | some v =>
    obtain ⟨ps', cs', da, db⟩ := v
    simp [hA]

/-- Replaying the replay's own output from the same initial state changes
nothing. -/
theorem replayMatches_idem (e : ℚ → ℚ → ℚ) (w : List (Nat × String)) :
    ∀ (ms : List Match) (st : List Player × ReplayCounts),
      replayMatches e w st (replayMatches e w st ms).2 = replayMatches e w st ms := by
  intro ms
  induction ms with
  | nil => intro st; rfl
  | cons m ms ih =>
    intro st
    simp only [replayMatches]
    rw [processMatch_idem]
    rw [ih]

/-- Resetting a fighter after a per-class rating write gives the same row as
resetting the original: the reset overwrites every rating field and reads
only the (untouched) belt. -/
theorem resetPlayer_setWcRating (p : Player) (wcn : String) (v : ℚ) :
    resetPlayer (setWcRating p wcn v) = resetPlayer p := by
  unfold setWcRating
  split_ifs <;> rfl

/-- Resetting a fighter after a P4P rating write gives the same row as
resetting the original. -/
theorem resetPlayer_setElo (p : Player) (x : Option ℚ) :
    resetPlayer { p with elo_rating := x } = resetPlayer p := rfl

/-- The reset is itself idempotent. -/
theorem resetPlayer_idem (p : Player) : resetPlayer (resetPlayer p) = resetPlayer p := rfl

/-- A per-fighter update that is invisible to the reset leaves the reset of
the whole roster unchanged. -/
theorem map_reset_updatePlayer (ps : List Player) (pid : Nat) (f : Player → Player)
    (hf : ∀ p, resetPlayer (f p) = resetPlayer p) :
    (updatePlayer ps pid f).map resetPlayer = ps.map resetPlayer := by
  unfold updatePlayer
  rw [List.map_map]
  apply List.map_congr_left
  intro p _
  by_cases h : p.id = pid <;> simp [h, hf]

set_option maxHeartbeats 1600000 in
/-- A processed match only writes rating fields, so resetting the roster
afterwards gives the same rows as resetting the input roster. -/
theorem attemptMatch_players_reset (e : ℚ → ℚ → ℚ) (w : List (Nat × String))
    (ps : List Player) (cs : ReplayCounts) (aId bId wcId : Option Nat)
    (res : Option MatchResult) (v : List Player × ReplayCounts × Int × Int)
    (h : attemptMatch e w ps cs aId bId wcId res = some v) :
    v.1.map resetPlayer = ps.map resetPlayer := by
  simp only [attemptMatch] at h
  split at h
  · exact Option.noConfusion h
  · split at h
    · split at h
      · exact Option.noConfusion h
      · split at h
        · exact Option.noConfusion h
        · split at h
          · exact Option.noConfusion h
          · split at h
            · cases h
              rw [map_reset_updatePlayer, map_reset_updatePlayer,
                map_reset_updatePlayer, map_reset_updatePlayer]
              · intro p; exact resetPlayer_setWcRating p _ _
              · intro p; exact resetPlayer_setWcRating p _ _
              · intro p; exact resetPlayer_setElo p _
              · intro p; exact resetPlayer_setElo p _
            · exact Option.noConfusion h
    · exact Option.noConfusion h

/-- State-level corollary: after the whole replay loop, resetting the roster
again reproduces the reset of the original roster. -/
theorem processMatch_players_reset (e : ℚ → ℚ → ℚ) (w : List (Nat × String))
    (st : List Player × ReplayCounts) (m : Match) :
    ((processMatch e w st m).1.1).map resetPlayer = st.1.map resetPlayer := by
  unfold processMatch
  cases hA : attemptMatch e w st.1 st.2 m.a_player_id m.b_player_id m.weight_class_id
      m.result with
  | none => simp [hA]
  | some v =>
    obtain ⟨ps', cs', da, db⟩ := v
    simp only [hA]
    exact attemptMatch_players_reset e w st.1 st.2 _ _ _ _ (ps', cs', da, db) hA

/-- The replay loop as a whole only writes rating fields of the roster. -/
theorem replayMatches_players_reset (e : ℚ → ℚ → ℚ) (w : List (Nat × String)) :
    ∀ (ms : List Match) (st : List Player × ReplayCounts),
      ((replayMatches e w st ms).1.1).map resetPlayer = st.1.map resetPlayer := by
  intro ms
  induction ms with
  | nil => intro st; rfl
  | cons m ms ih =>
    intro st
    simp only [replayMatches]
    rw [ih, processMatch_players_reset]

/-- Resetting a roster twice equals resetting it once. -/
theorem map_reset_reset (ps : List Player) :
    (ps.map resetPlayer).map resetPlayer = ps.map resetPlayer := by
  rw [List.map_map]
  apply List.map_congr_left
  intro p _
  exact resetPlayer_idem p

/-- A second replay invocation on the output of a first one reproduces the
first one's output exactly. -/
theorem replayOnce_idem (e : ℚ → ℚ → ℚ) (w : List (Nat × String))
    (s : List Player × List Match) :
    replayOnce e w (replayOnce e w s) = replayOnce e w s := by
  have h1 : ((replayMatches e w (s.1.map resetPlayer,
        ({ match_counts := fun _ _ => 0, p4p_match_counts := fun _ => 0 } : ReplayCounts))
        s.2).1.1).map resetPlayer = s.1.map resetPlayer := by
    rw [replayMatches_players_reset, map_reset_reset]
  simp only [replayOnce, recalculate_all_elo]
  rw [h1, replayMatches_idem]

/-- C2: the rating replay is idempotent — for every expected-score function,
weight-class table, roster and match list, running `recalculate_all_elo`
k + 1 times in succession produces exactly the per-fighter overall and
per-weight-class ratings and per-match A/B deltas of running it once. -/
theorem c2_replay_idempotent (e : ℚ → ℚ → ℚ) (w : List (Nat × String))
    (players : List Player) (matchList : List Match) (k : Nat) :
    (replayOnce e w)^[k] (replayOnce e w (players, matchList)) =
      replayOnce e w (players, matchList) := by
  induction k with
  | zero => rfl
  | succ k ih => rw [Function.iterate_succ_apply, replayOnce_idem, ih]

/-! ## Claim C10 — matches with an unrecognised weight-class name -/

/-- A match whose weight class resolves to a name other than lightweight /
middleweight / heavyweight is a `continue` path of the replay loop. -/
theorem attemptMatch_unknown_class_none (e : ℚ → ℚ → ℚ) (w : List (Nat × String))
    (ps : List Player) (cs : ReplayCounts) (aId bId : Option Nat)
    (res : Option MatchResult) (wid : Nat)
    (h5 : ¬(replayWeightClassName w wid = "lightweight" ∨
            replayWeightClassName w wid = "middleweight" ∨
            replayWeightClassName w wid = "heavyweight")) :
    attemptMatch e w ps cs aId bId (some wid) res = none := by
  simp only [attemptMatch]
  split
  · rfl
  · split
    · split_ifs <;> first | rfl | exact absurd (by assumption) h5
    · rfl

/-- The replay loop leaves a match with an unrecognised weight-class name —
and the whole replay state — completely untouched. -/
theorem processMatch_skip_unknown_class (e : ℚ → ℚ → ℚ) (w : List (Nat × String))
    (st : List Player × ReplayCounts) (m : Match) (wid : Nat)
    (h4 : m.weight_class_id = some wid)
    (h5 : ¬(replayWeightClassName w wid = "lightweight" ∨
            replayWeightClassName w wid = "middleweight" ∨
            replayWeightClassName w wid = "heavyweight")) :
    processMatch e w st m = (st, m) := by
  unfold processMatch
  rw [h4, attemptMatch_unknown_class_none e w st.1 st.2 _ _ _ _ h5]

/-- The replay loop distributes over list append. -/
theorem replayMatches_append (e : ℚ → ℚ → ℚ) (w : List (Nat × String)) :
    ∀ (xs ys : List Match) (st : List Player × ReplayCounts),
      replayMatches e w st (xs ++ ys) =
        ((replayMatches e w (replayMatches e w st xs).1 ys).1,
         (replayMatches e w st xs).2 ++
           (replayMatches e w (replayMatches e w st xs).1 ys).2) := by
  intro xs
  induction xs with
  | nil => intro ys st; rfl
  | cons x xs ih =>
    intro ys st
    simp only [List.cons_append, replayMatches, List.append_eq, ih]

/-- The replay loop returns one output row per input row. -/
theorem replayMatches_length (e : ℚ → ℚ → ℚ) (w : List (Nat × String)) :
    ∀ (ms : List Match) (st : List Player × ReplayCounts),
      ((replayMatches e w st ms).2).length = ms.length := by
  intro ms
  induction ms with
  | nil => intro st; rfl
  | cons m ms ih => intro st; simp only [replayMatches, List.length_cons, ih]

/-- C10: during rating replay, a match with both slots set and a non-null
result whose weight class is set but resolves to a name other than
lightweight / middleweight / heavyweight is excluded from both the per-class
and the overall (P4P) rating tracks: the resulting rosters, per-class
counters and P4P counters are those of the replay without that match, and the
match row itself — including its stored aEloChange / bEloChange — is passed
through unchanged rather than reset. -/
theorem c10_unknown_class_frame (e : ℚ → ℚ → ℚ) (w : List (Nat × String))
    (players : List Player) (ms1 ms2 : List Match) (m : Match) (wid : Nat)
    (h1 : m.a_player_id.isSome = true) (h2 : m.b_player_id.isSome = true)
    (h3 : m.result.isSome = true)
    (h4 : m.weight_class_id = some wid)
    (h5 : replayWeightClassName w wid ∉ ["lightweight", "middleweight", "heavyweight"]) :
    (recalculate_all_elo e w players (ms1 ++ m :: ms2)).players =
      (recalculate_all_elo e w players (ms1 ++ ms2)).players ∧
    (recalculate_all_elo e w players (ms1 ++ m :: ms2)).match_counts =
      (recalculate_all_elo e w players (ms1 ++ ms2)).match_counts ∧
    (recalculate_all_elo e w players (ms1 ++ m :: ms2)).p4p_match_counts =
      (recalculate_all_elo e w players (ms1 ++ ms2)).p4p_match_counts ∧
    (recalculate_all_elo e w players (ms1 ++ m :: ms2)).matchList =
      (recalculate_all_elo e w players (ms1 ++ ms2)).matchList.take ms1.length ++
        m :: (recalculate_all_elo e w players (ms1 ++ ms2)).matchList.drop ms1.length := by
  have h5' : ¬(replayWeightClassName w wid = "lightweight" ∨
      replayWeightClassName w wid = "middleweight" ∨
      replayWeightClassName w wid = "heavyweight") := by
    simpa using h5
  simp only [recalculate_all_elo]
  rw [replayMatches_append, replayMatches_append]
  simp only [replayMatches]
  rw [processMatch_skip_unknown_class e w _ m wid h4 h5']
  refine ⟨rfl, rfl, rfl, ?_⟩
  rw [List.take_left' (replayMatches_length e w ms1 _),
    List.drop_left' (replayMatches_length e w ms1 _)]

/-- Two fighters for the C10 witness scenario. -/
def c10Players : List Player :=
  [{ id := 1, bjj_belt_rank := some "Blue" },
   { id := 2, bjj_belt_rank := some "Purple" }]

/-- A completed draw fought at weight class 2 ("Featherweight" — not one of
the three ranked divisions), carrying a stale stored delta. -/
def c10Match : Match :=
  { id := 3
    a_player_id := some 1
    b_player_id := some 2
    weight_class_id := some 2
    result := some MatchResult.DRAW
    match_status := MatchStatus.COMPLETED
    a_elo_change := some 7
    b_elo_change := some (-7) }

/-- Witness for `c10_unknown_class_frame` at a concrete roster, weight-class
table and match. -/
theorem c10_unknown_class_frame_witness :
    (c10Match.a_player_id.isSome = true ∧ c10Match.b_player_id.isSome = true ∧
     c10Match.result.isSome = true ∧ c10Match.weight_class_id = some 2 ∧
     replayWeightClassName [(1, "Lightweight"), (2, "Featherweight")] 2 ∉
       ["lightweight", "middleweight", "heavyweight"]) ∧
    ((recalculate_all_elo (fun _ _ => 1 / 2) [(1, "Lightweight"), (2, "Featherweight")]
        c10Players ([] ++ c10Match :: [])).players =
      (recalculate_all_elo (fun _ _ => 1 / 2) [(1, "Lightweight"), (2, "Featherweight")]
        c10Players ([] ++ [])).players ∧
     (recalculate_all_elo (fun _ _ => 1 / 2) [(1, "Lightweight"), (2, "Featherweight")]
        c10Players ([] ++ c10Match :: [])).match_counts =
      (recalculate_all_elo (fun _ _ => 1 / 2) [(1, "Lightweight"), (2, "Featherweight")]
        c10Players ([] ++ [])).match_counts ∧
     (recalculate_all_elo (fun _ _ => 1 / 2) [(1, "Lightweight"), (2, "Featherweight")]
        c10Players ([] ++ c10Match :: [])).p4p_match_counts =
      (recalculate_all_elo (fun _ _ => 1 / 2) [(1, "Lightweight"), (2, "Featherweight")]
        c10Players ([] ++ [])).p4p_match_counts ∧
     (recalculate_all_elo (fun _ _ => 1 / 2) [(1, "Lightweight"), (2, "Featherweight")]
        c10Players ([] ++ c10Match :: [])).matchList =
      (recalculate_all_elo (fun _ _ => 1 / 2) [(1, "Lightweight"), (2, "Featherweight")]
        c10Players ([] ++ [])).matchList.take ([] : List Match).length ++
        c10Match :: (recalculate_all_elo (fun _ _ => 1 / 2)
          [(1, "Lightweight"), (2, "Featherweight")]
          c10Players ([] ++ [])).matchList.drop ([] : List Match).length) :=
  ⟨⟨rfl, rfl, rfl, rfl, by decide⟩,
   c10_unknown_class_frame (fun _ _ => 1 / 2) [(1, "Lightweight"), (2, "Featherweight")]
     c10Players [] [] c10Match 2 rfl rfl rfl rfl (by decide)⟩

/-- `pyAbs` agrees with the absolute value. -/
theorem pyAbs_eq_abs (q : ℚ) : pyAbs q = |q| := by
  unfold pyAbs
  by_cases h : q < 0
  · rw [if_pos h, abs_of_neg h]
  · rw [if_neg h, abs_of_nonneg (le_of_not_lt h)]

/-- The Boolean weight check implies the declarative legality predicate. -/
theorem is_valid_weight_match_spec (pd : List (Nat × PData)) (a b : Nat)
    (h : is_valid_weight_match pd a b = true) :
    weight_legal_spec (weightOf pd a) (weightOf pd b) := by
  simp only [is_valid_weight_match] at h
  unfold weight_legal_spec
  split_ifs at h with h1 h2
  · rcases h1 with h1 | h1
    · exact Or.inl h1
    · exact Or.inr (Or.inl h1)
  · exact Or.inr (Or.inr (Or.inl h2))
  · have h3 := of_decide_eq_true h
    rw [pyAbs_eq_abs] at h3
    exact Or.inr (Or.inr (Or.inr h3))

/-- Every pass of the opponent search requires `is_valid_weight_match`, so a
found opponent is always weight-legal. -/
theorem findOpponent_valid (pd : List (Nat × PData)) (standings : List (Nat × Standing))
    (hist : List (Nat × List Nat)) (maxR p : Nat) (rest paired : List Nat) (c : Nat)
    (h : findOpponent pd standings hist maxR p rest paired = some c) :
    is_valid_weight_match pd p c = true := by
  unfold findOpponent at h
  split at h
  · rename_i c1 heq
    cases h
    have hp := List.find?_some heq
    simp only [Bool.and_eq_true] at hp
    exact hp.1.2
  · split at h
    · rename_i c2 heq
      cases h
      have hp := List.find?_some heq
      simp only [Bool.and_eq_true] at hp
      exact hp.1.2
    · split at h
      · rename_i c3 heq
        cases h
        have hp := List.find?_some heq
        simp only [Bool.and_eq_true] at hp
        exact hp.2
      · have hp := List.find?_some h
        simp only [Bool.and_eq_true] at hp
        exact hp.2

/-- Invariant of the pairing loop: every contested pairing it emits is
weight-legal, and every bye is assigned the fighter's own weight class. -/
theorem wagLoop_pairs_valid (pd : List (Nat × PData)) (standings : List (Nat × Standing))
    (hist : List (Nat × List Nat)) (maxR : Nat) :
    ∀ (remaining paired : List Nat) (x : Nat × Option Nat × Option Nat),
      x ∈ wagLoop pd standings hist maxR remaining paired →
      (∀ b, x.2.1 = some b → weight_legal_spec (weightOf pd x.1) (weightOf pd b)) ∧
      (x.2.1 = none → x.2.2 = weightClassOf pd x.1) := by
  intro remaining
  induction remaining with
  | nil =>
    intro paired x hx
    simp only [wagLoop, List.not_mem_nil] at hx
  | cons p rest ih =>
    intro paired x hx
    simp only [wagLoop] at hx
    split at hx
    · exact ih paired x hx
    · split at hx
      · rename_i opp heq
        split at hx
        · rcases List.mem_cons.mp hx with hx1 | hx2
          · subst hx1
            refine ⟨?_, ?_⟩
            · intro b hb
              cases hb
              exact is_valid_weight_match_spec pd p opp
                (findOpponent_valid pd standings hist maxR p rest paired opp heq)
            · intro hnone
              exact Option.noConfusion hnone
          · exact ih _ x hx2
        · rcases List.mem_cons.mp hx with hx1 | hx2
          · subst hx1
            refine ⟨?_, ?_⟩
            · intro b hb
              exact Option.noConfusion hb
            · intro _
              rfl
          · exact ih _ x hx2
      · rcases List.mem_cons.mp hx with hx1 | hx2
        · subst hx1
          refine ⟨?_, ?_⟩
          · intro b hb
            exact Option.noConfusion hb
          · intro _
            rfl
        · exact ih _ x hx2

/-- C7 (amended): every contested pairing produced by weight-aware guaranteed
pairing satisfies the weight-legality predicate the source enforces — legal
when EITHER weight is missing (recorded as 0), otherwise legal regardless of
gap when both fighters weigh over 200 lb, otherwise legal iff the absolute
weight difference is at most 30 lb — and a fighter given a bye has it
assigned to their own weight class (there is no fallback that pairs a fighter
above the weight-legality floor). -/
theorem c7_pairing_weight_legal (players : List Player)
    (entries : List (Nat × Option Nat)) (standings : List (Nat × Standing))
    (hist : List (Nat × List Nat)) (maxR : Nat) (x : Nat × Option Nat × Option Nat)
    (hx : x ∈ weight_aware_guaranteed_pairing players entries standings hist maxR) :
    (∀ b, x.2.1 = some b →
      weight_legal_spec
        (weightOf (build_player_data players entries standings) x.1)
        (weightOf (build_player_data players entries standings) b)) ∧
    (x.2.1 = none →
      x.2.2 = weightClassOf (build_player_data players entries standings) x.1) := by
  simp only [weight_aware_guaranteed_pairing] at hx
  exact wagLoop_pairs_valid _ _ _ _ _ _ x hx

/-- Two heavyweight fighters (both over 200 lb) for the C7 witness. -/
def c7wPlayers : List Player :=
  [{ id := 1, weight := some 205 }, { id := 2, weight := some 250 }]

/-- Both entered in weight class 5. -/
def c7wEntries : List (Nat × Option Nat) := [(1, some 5), (2, some 5)]

/-- Fresh standings for the witness. -/
def c7wStandings : List (Nat × Standing) :=
  [(1, { wins := 0, losses := 0, draws := 0, points := 0 }),
   (2, { wins := 0, losses := 0, draws := 0, points := 0 })]

/-- Witness for `c7_pairing_weight_legal` at a concrete pairing. -/
theorem c7_pairing_weight_legal_witness :
    ((1, some 2, some 5) ∈ weight_aware_guaranteed_pairing c7wPlayers c7wEntries
      c7wStandings [] 1) ∧
    ((∀ b, ((1, some 2, some 5) : Nat × Option Nat × Option Nat).2.1 = some b →
      weight_legal_spec
        (weightOf (build_player_data c7wPlayers c7wEntries c7wStandings) 1)
        (weightOf (build_player_data c7wPlayers c7wEntries c7wStandings) b)) ∧
     (((1, some 2, some 5) : Nat × Option Nat × Option Nat).2.1 = none →
      ((1, some 2, some 5) : Nat × Option Nat × Option Nat).2.2 =
        weightClassOf (build_player_data c7wPlayers c7wEntries c7wStandings) 1)) :=
  ⟨by decide,
   c7_pairing_weight_legal c7wPlayers c7wEntries c7wStandings [] 1 (1, some 2, some 5)
     (by decide)⟩

/-! ## Claim C5 — what undo does and does not restore -/

/-- A match row with its replay-written delta columns blanked; two rows with
equal erasure agree on every column except the deltas. -/
def eraseDeltas (m : Match) : Match :=
  { m with a_elo_change := none, b_elo_change := none }

/-- Field-wise consequences of equal delta-erasures. -/
theorem eraseDeltas_fields (a b : Match) (h : eraseDeltas a = eraseDeltas b) :
    a.id = b.id ∧ a.event_date = b.event_date ∧ a.a_player_id = b.a_player_id ∧
    a.b_player_id = b.b_player_id ∧ a.weight_class_id = b.weight_class_id ∧
    a.result = b.result ∧ a.method = b.method ∧
    a.duration_seconds = b.duration_seconds ∧
    a.bracket_round_id = b.bracket_round_id ∧ a.match_status = b.match_status ∧
    a.match_number = b.match_number ∧ a.depends_on_match_a = b.depends_on_match_a ∧
    a.depends_on_match_b = b.depends_on_match_b ∧
    a.requires_winner_a = b.requires_winner_a ∧
    a.requires_winner_b = b.requires_winner_b ∧ a.completed_at = b.completed_at := by
  cases a
  cases b
  simp only [eraseDeltas, Match.mk.injEq, and_true] at h
  exact h

/-- A match with a null result is a `continue` path of the replay loop. -/
theorem processMatch_result_none (e : ℚ → ℚ → ℚ) (w : List (Nat × String))
    (st : List Player × ReplayCounts) (m : Match) (h : m.result = none) :
    processMatch e w st m = (st, m) := by
  unfold processMatch
  have hA : attemptMatch e w st.1 st.2 m.a_player_id m.b_player_id m.weight_class_id
      m.result = none := by
    rw [h]
    rfl
  rw [hA]

/-- The replay loop changes nothing of a match row except its delta columns. -/
theorem processMatch_erase (e : ℚ → ℚ → ℚ) (w : List (Nat × String))
    (st : List Player × ReplayCounts) (m : Match) :
    eraseDeltas (processMatch e w st m).2 = eraseDeltas m := by
  unfold processMatch
  cases hA : attemptMatch e w st.1 st.2 m.a_player_id m.b_player_id m.weight_class_id
      m.result with
  | none => simp [hA]
  | some v =>
    obtain ⟨ps', cs', da, db⟩ := v
    simp [hA, eraseDeltas]

/-- Row-wise: the whole replay output agrees with its input except on the
delta columns. -/
theorem replayMatches_erase (e : ℚ → ℚ → ℚ) (w : List (Nat × String)) :
    ∀ (ms : List Match) (st : List Player × ReplayCounts),
      ((replayMatches e w st ms).2).map eraseDeltas = ms.map eraseDeltas := by
  intro ms
  induction ms with
  | nil => intro st; rfl
  | cons m ms ih =>
    intro st
    simp only [replayMatches, List.map_cons, ih, processMatch_erase]

/-- Rows with a null result pass through the replay loop untouched. -/
theorem replayMatches_get_result_none (e : ℚ → ℚ → ℚ) (w : List (Nat × String)) :
    ∀ (ms : List Match) (st : List Player × ReplayCounts) (i : Nat) (a : Match),
      ms.get? i = some a → a.result = none →
      ((replayMatches e w st ms).2).get? i = some a := by
  intro ms
  induction ms with
  | nil =>
    intro st i a ha _
    simp at ha
  | cons m ms ih =>
    intro st i a ha hres
    cases i with
    | zero =>
      simp only [List.get?_cons_zero, Option.some.injEq] at ha
      subst ha
      simp only [replayMatches, List.get?_cons_zero, Option.some.injEq]
      rw [processMatch_result_none e w st _ hres]
    | succ n =>
      simp only [List.get?_cons_succ] at ha
      simp only [replayMatches, List.get?_cons_succ]
      exact ih _ n a ha hres

/-- `undoDepClear` never changes a row's id. -/
theorem undoDepClear_id (mid : Nat) (wi lo : Option Nat) (x : Match) :
    (undoDepClear mid wi lo x).id = x.id := by
  simp only [undoDepClear]
  split_ifs <;> rfl

/-- `undoDepClear` never changes a row's result, method, duration or
completion time. -/
theorem undoDepClear_frame (mid : Nat) (wi lo : Option Nat) (x : Match) :
    (undoDepClear mid wi lo x).result = x.result ∧
    (undoDepClear mid wi lo x).method = x.method ∧
    (undoDepClear mid wi lo x).duration_seconds = x.duration_seconds ∧
    (undoDepClear mid wi lo x).completed_at = x.completed_at := by
  simp only [undoDepClear]
  split_ifs <;> exact ⟨rfl, rfl, rfl, rfl⟩

/-- A dependent whose A slot was populated from the undone match's winner or
loser has that slot cleared and is reset to PENDING. -/
theorem undoDepClear_clears_a (mid : Nat) (wi lo : Option Nat) (x : Match)
    (hda : x.depends_on_match_a = some mid)
    (hv : x.a_player_id = wi ∨ x.a_player_id = lo) :
    (undoDepClear mid wi lo x).a_player_id = none ∧
    (undoDepClear mid wi lo x).match_status = MatchStatus.PENDING := by
  simp only [undoDepClear]
  split_ifs <;>
    first
      | exact ⟨rfl, rfl⟩
      | exact absurd (Or.inl hda) (by assumption)
      | exact absurd (And.intro hda hv) (by assumption)

/-- A dependent whose B slot was populated from the undone match's winner or
loser has that slot cleared and is reset to PENDING. -/
theorem undoDepClear_clears_b (mid : Nat) (wi lo : Option Nat) (x : Match)
    (hdb : x.depends_on_match_b = some mid)
    (hv : x.b_player_id = wi ∨ x.b_player_id = lo) :
    (undoDepClear mid wi lo x).b_player_id = none ∧
    (undoDepClear mid wi lo x).match_status = MatchStatus.PENDING := by
  simp only [undoDepClear]
  split_ifs <;>
    first
      | exact ⟨rfl, rfl⟩
      | exact absurd (Or.inr hdb) (by assumption)
      | exact absurd (And.intro hdb hv) (by assumption)

/-- The per-row transformation the undo endpoint applies before the replay:
dependent-slot clearing everywhere, plus field clearing and status reset on
the undone match's row. -/
def undoRowFn (mid : Nat) (wi lo : Option Nat) (x : Match) : Match :=
  if (undoDepClear mid wi lo x).id = mid
  then undoResetStatus (undoClearMatch (undoDepClear mid wi lo x))
  else undoDepClear mid wi lo x

/-- The undo endpoint's two mutation passes compose into one row-wise map. -/
theorem undo_ms2_map (mid : Nat) (wi lo : Option Nat) (ms : List Match) :
    updateRow (ms.map (fun dep => undoDepClear mid wi lo dep)) mid
      (fun z => undoResetStatus (undoClearMatch z)) = ms.map (undoRowFn mid wi lo) := by
  unfold updateRow undoRowFn
  rw [List.map_map]
  rfl

/-- C5 (amended): `undo_match_result` on a match with a result clears that
match's result, method, duration, deltas and completedAt and resets its
status to Ready when both its slots are truthy, else Pending; in every other
row it clears any slot that depends on the undone match and equals its winner
or loser, resetting that dependent to Pending, while leaving the row's
result, method, duration and completedAt exactly as they were — in
particular, a dependent auto-completed as a bye during propagation keeps its
bye result and completion fields and is NOT restored to its pre-update
state. -/
theorem c5_undo_postconditions (e : ℚ → ℚ → ℚ) (w : List (Nat × String))
    (ps : List Player) (ms : List Match) (match_id : Nat) (m : Match)
    (hfind : ms.find? (fun x => x.id == match_id) = some m)
    (hres : m.result ≠ none) :
    ∃ psF msF, undo_match_result e w ps ms match_id = some (psF, msF) ∧
      msF.length = ms.length ∧
      ∀ i x y, ms.get? i = some x → msF.get? i = some y →
        (x.id = match_id →
          y.result = none ∧ y.method = none ∧ y.duration_seconds = none ∧
          y.a_elo_change = none ∧ y.b_elo_change = none ∧ y.completed_at = none ∧
          y.match_status = (if optTruthy y.a_player_id ∧ optTruthy y.b_player_id
            then MatchStatus.READY else MatchStatus.PENDING)) ∧
        (x.id ≠ match_id →
          y.result = x.result ∧ y.method = x.method ∧
          y.duration_seconds = x.duration_seconds ∧ y.completed_at = x.completed_at ∧
          (x.depends_on_match_a = some match_id →
            (x.a_player_id = (winnerLoserOf m).1 ∨ x.a_player_id = (winnerLoserOf m).2) →
            y.a_player_id = none ∧ y.match_status = MatchStatus.PENDING) ∧
          (x.depends_on_match_b = some match_id →
            (x.b_player_id = (winnerLoserOf m).1 ∨ x.b_player_id = (winnerLoserOf m).2) →
            y.b_player_id = none ∧ y.match_status = MatchStatus.PENDING)) := by
  simp only [undo_match_result, hfind]
  rw [if_neg hres]
  rw [undo_ms2_map match_id (winnerLoserOf m).1 (winnerLoserOf m).2 ms]
  refine ⟨_, _, rfl, ?_, ?_⟩
  · simp only [recalculate_all_elo]
    rw [replayMatches_length]
    rw [List.length_map]
  · intro i x y hx hy
    have hms2 : (ms.map (undoRowFn match_id (winnerLoserOf m).1 (winnerLoserOf m).2)).get? i =
        some (undoRowFn match_id (winnerLoserOf m).1 (winnerLoserOf m).2 x) := by
      rw [List.get?_map, hx]
      rfl
    constructor
    · intro hxid
      have hrow : undoRowFn match_id (winnerLoserOf m).1 (winnerLoserOf m).2 x =
          undoResetStatus (undoClearMatch
            (undoDepClear match_id (winnerLoserOf m).1 (winnerLoserOf m).2 x)) := by
        unfold undoRowFn
        rw [if_pos]
        rw [undoDepClear_id]
        exact hxid
      have hrnone : (undoRowFn match_id (winnerLoserOf m).1 (winnerLoserOf m).2 x).result
          = none := by
        rw [hrow]
        rfl
      have hyy : y = undoRowFn match_id (winnerLoserOf m).1 (winnerLoserOf m).2 x := by
        have h2 := replayMatches_get_result_none e w
          (ms.map (undoRowFn match_id (winnerLoserOf m).1 (winnerLoserOf m).2))
          (ps.map resetPlayer,
           { match_counts := fun _ _ => 0, p4p_match_counts := fun _ => 0 })
          i _ hms2 hrnone
        simp only [recalculate_all_elo] at hy
        rw [h2] at hy
        exact (Option.some.injEq _ _).mp hy.symm
      subst hyy
      rw [hrow]
      exact ⟨rfl, rfl, rfl, rfl, rfl, rfl, rfl⟩
    · intro hxid
      have hrow : undoRowFn match_id (winnerLoserOf m).1 (winnerLoserOf m).2 x =
          undoDepClear match_id (winnerLoserOf m).1 (winnerLoserOf m).2 x := by
        unfold undoRowFn
        rw [if_neg]
        rw [undoDepClear_id]
        exact hxid
      have herase : eraseDeltas y =
          eraseDeltas (undoDepClear match_id (winnerLoserOf m).1 (winnerLoserOf m).2 x) := by
        have h2 := replayMatches_erase e w
          (ms.map (undoRowFn match_id (winnerLoserOf m).1 (winnerLoserOf m).2))
          (ps.map resetPlayer,
           { match_counts := fun _ _ => 0, p4p_match_counts := fun _ => 0 })
        have h3 := congrArg (fun l => l.get? i) h2
        simp only [List.get?_map] at h3
        simp only [recalculate_all_elo] at hy
        rw [hy, hx] at h3
        simp only [Option.map_some'] at h3
        rw [hrow] at h3
        exact (Option.some.injEq _ _).mp h3
      obtain ⟨-, -, hfa, hfb, -, hfres, hfm, hfd, -, hfst, -, -, -, -, -, hfc⟩ :=
        eraseDeltas_fields _ _ herase
      obtain ⟨hq1, hq2, hq3, hq4⟩ :=
        undoDepClear_frame match_id (winnerLoserOf m).1 (winnerLoserOf m).2 x
      refine ⟨hfres.trans hq1, hfm.trans hq2, hfd.trans hq3, hfc.trans hq4, ?_, ?_⟩
      · intro hda hv
        obtain ⟨hc1, hc2⟩ :=
          undoDepClear_clears_a match_id (winnerLoserOf m).1 (winnerLoserOf m).2 x hda hv
        exact ⟨hfa.trans hc1, hfst.trans hc2⟩
      · intro hdb hv
        obtain ⟨hc1, hc2⟩ :=
          undoDepClear_clears_b match_id (winnerLoserOf m).1 (winnerLoserOf m).2 x hdb hv
        exact ⟨hfb.trans hc1, hfst.trans hc2⟩

/-- A completed draw for the C5 witness. -/
def c5wMatch : Match :=
  { id := 1
    a_player_id := some 1
    b_player_id := some 2
    result := some MatchResult.DRAW
    method := some "draw"
    match_status := MatchStatus.COMPLETED
    completed_at := some 5 }

/-- Witness for `c5_undo_postconditions` at a concrete one-match state. -/
theorem c5_undo_postconditions_witness :
    ([c5wMatch].find? (fun x => x.id == 1) = some c5wMatch) ∧
    c5wMatch.result ≠ none ∧
    (∃ psF msF,
      undo_match_result (fun _ _ => 1 / 2) [] [] [c5wMatch] 1 = some (psF, msF) ∧
      msF.length = [c5wMatch].length ∧
      ∀ i x y, [c5wMatch].get? i = some x → msF.get? i = some y →
        (x.id = 1 →
          y.result = none ∧ y.method = none ∧ y.duration_seconds = none ∧
          y.a_elo_change = none ∧ y.b_elo_change = none ∧ y.completed_at = none ∧
          y.match_status = (if optTruthy y.a_player_id ∧ optTruthy y.b_player_id
            then MatchStatus.READY else MatchStatus.PENDING)) ∧
        (x.id ≠ 1 →
          y.result = x.result ∧ y.method = x.method ∧
          y.duration_seconds = x.duration_seconds ∧ y.completed_at = x.completed_at ∧
          (x.depends_on_match_a = some 1 →
            (x.a_player_id = (winnerLoserOf c5wMatch).1 ∨
             x.a_player_id = (winnerLoserOf c5wMatch).2) →
            y.a_player_id = none ∧ y.match_status = MatchStatus.PENDING) ∧
          (x.depends_on_match_b = some 1 →
            (x.b_player_id = (winnerLoserOf c5wMatch).1 ∨
             x.b_player_id = (winnerLoserOf c5wMatch).2) →
            y.b_player_id = none ∧ y.match_status = MatchStatus.PENDING))) :=
  ⟨by decide, by decide,
   c5_undo_postconditions (fun _ _ => 1 / 2) [] [] [c5wMatch] 1 c5wMatch
     (by decide) (by decide)⟩

/-! ## Claim C8 — update on a slotless match succeeds -/

/-- Slot propagation never changes a row's id. -/
theorem propagateSlots_id (wi lo : Option Nat) (srcId : Nat) (dep : Match) :
    (propagateSlots wi lo srcId dep).id = dep.id := by
  simp only [propagateSlots]
  split_ifs <;> rfl

/-- The readiness / bye check never changes a row's id. -/
theorem readinessCheck_id (now : Nat) (dep : Match) :
    ((readinessCheck now dep).1).id = dep.id := by
  simp only [readinessCheck]
  split_ifs <;> rfl

/-- One dependent step preserves the list of row ids. -/
theorem propagateStep_ids (now : Nat) (wi lo : Option Nat) (srcId : Nat)
    (st : List Match × List Nat) (did : Nat) :
    ((propagateStep now wi lo srcId st did).1).map (fun m => m.id) =
      st.1.map (fun m => m.id) := by
  unfold propagateStep
  cases heq : st.1.find? (fun d => d.id == did) with
  | none => simp only [heq]
  | some dep =>
    have hdep : dep.id = did := by
      have := List.find?_some heq
      simpa using this
    simp only [heq, updateRow, List.map_map]
    apply List.map_congr_left
    intro a _
    by_cases h : a.id = did
    · simp only [Function.comp_apply, if_pos h]
      rw [readinessCheck_id, propagateSlots_id, hdep, h]
    · simp only [Function.comp_apply, if_neg h]

/-- The whole dependent loop preserves the list of row ids. -/
theorem foldl_propagateStep_ids (now : Nat) (wi lo : Option Nat) (srcId : Nat) :
    ∀ (dids : List Nat) (st : List Match × List Nat),
      ((dids.foldl (propagateStep now wi lo srcId) st).1).map (fun m => m.id) =
        st.1.map (fun m => m.id) := by
  intro dids
  induction dids with
  | nil => intro st; rfl
  | cons d ds ih =>
    intro st
    simp only [List.foldl_cons]
    rw [ih, propagateStep_ids]

/-- A dependent step leaves every row whose id differs from the stepped id
untouched. -/
theorem propagateStep_get_ne (now : Nat) (wi lo : Option Nat) (srcId : Nat)
    (st : List Match × List Nat) (did : Nat) (i : Nat) (x : Match)
    (hi : st.1.get? i = some x) (hne : x.id ≠ did) :
    ((propagateStep now wi lo srcId st did).1).get? i = some x := by
  unfold propagateStep
  cases heq : st.1.find? (fun d => d.id == did) with
  | none => simp only [heq]; exact hi
  | some dep =>
    simp only [heq, updateRow, List.get?_map, hi, Option.map_some']
    rw [if_neg hne]

/-- The whole dependent loop leaves every row whose id is not among the
stepped ids untouched. -/
theorem foldl_propagateStep_get (now : Nat) (wi lo : Option Nat) (srcId : Nat) :
    ∀ (dids : List Nat) (st : List Match × List Nat) (i : Nat) (x : Match),
      st.1.get? i = some x → (∀ d ∈ dids, x.id ≠ d) →
      ((dids.foldl (propagateStep now wi lo srcId) st).1).get? i = some x := by
  intro dids
  induction dids with
  | nil => intro st i x hi _; exact hi
  | cons d ds ih =>
    intro st i x hi hne
    simp only [List.foldl_cons]
    exact ih _ i x
      (propagateStep_get_ne now wi lo srcId st d i x hi (hne d (List.mem_cons_self d ds)))
      (fun d' hd' => hne d' (List.mem_cons_of_mem d hd'))

/-- Result propagation never touches a row with no dependency references:
propagation writes only into rows that declare a dependency on some
propagated match. -/
theorem propagate_aux_root (now : Nat) :
    ∀ (fuel : Nat) (ms : List Match) (queue : List Nat) (i : Nat) (x : Match),
      ms.get? i = some x →
      x.depends_on_match_a = none → x.depends_on_match_b = none →
      (ms.map (fun m => m.id)).Nodup →
      (propagate_result_aux now fuel ms queue).get? i = some x := by
  intro fuel
  induction fuel with
  | zero =>
    intro ms queue i x hi _ _ _
    cases queue with
    | nil => exact hi
    | cons q qs => exact hi
  | succ fuel ih =>
    intro ms queue i x hi hra hrb hnodup
    cases queue with
    | nil => exact hi
    | cons mid rest =>
      simp only [propagate_result_aux]
      cases hfind : ms.find? (fun m => m.id == mid) with
      | none => exact ih ms rest i x hi hra hrb hnodup
      | some m0 =>
        simp only [hfind]
        split_ifs with hres0
        · exact ih ms rest i x hi hra hrb hnodup
        · have hdids : ∀ d ∈ ((ms.filter (fun d =>
              d.depends_on_match_a = some mid ∨ d.depends_on_match_b = some mid)).map
              (fun d => d.id)), x.id ≠ d := by
            intro d hd
            simp only [List.mem_map, List.mem_filter] at hd
            obtain ⟨d0, ⟨hd0mem, hd0cond⟩, hd0id⟩ := hd
            intro hxd
            have hxmem : x ∈ ms := List.get?_mem hi
            have hxd0 : x = d0 :=
              List.inj_on_of_nodup_map hnodup hxmem hd0mem (by rw [hxd, hd0id])
            have := of_decide_eq_true hd0cond
            rcases this with hc | hc
            · rw [← hxd0, hra] at hc
              exact Option.noConfusion hc
            · rw [← hxd0, hrb] at hc
              exact Option.noConfusion hc
          have hstep1 := foldl_propagateStep_get now (winnerLoserOf m0).1
            (winnerLoserOf m0).2 mid _ (ms, []) i x hi hdids
          have hstepids := foldl_propagateStep_ids now (winnerLoserOf m0).1
            (winnerLoserOf m0).2 mid ((ms.filter (fun d =>
              d.depends_on_match_a = some mid ∨ d.depends_on_match_b = some mid)).map
              (fun d => d.id)) (ms, [])
          refine ih _ _ i x hstep1 hra hrb ?_
          rw [hstepids]
          exact hnodup

/-- A match with neither fighter slot set yields null winner and loser ids. -/
theorem winnerLoserOf_null (m : Match) (ha : m.a_player_id = none)
    (hb : m.b_player_id = none) : winnerLoserOf m = (none, none) := by
  unfold winnerLoserOf
  cases hres : m.result with
  | none => rfl
  | some r => cases r <;> simp [ha, hb]

/-- With null winner and loser ids, slot propagation writes nothing. -/
theorem propagateSlots_none (srcId : Nat) (dep : Match) :
    propagateSlots none none srcId dep = dep := by
  simp [propagateSlots, optTruthy]

/-- How the dependent loop with null winner and loser can change a row: not at
all, or — when both its fighter slots are already occupied — by setting its
status to Ready.  Slots, results and dependency fields are untouched. -/
def c8StepRel (x y : Match) : Prop :=
  y = x ∨ (optTruthy x.a_player_id = true ∧ optTruthy x.b_player_id = true ∧
    y = { x with match_status := MatchStatus.READY })

/-- `c8StepRel` changes neither the id, the fighter slots nor
`requires_winner_b`. -/
theorem c8StepRel_fields (x y : Match) (h : c8StepRel x y) :
    y.id = x.id ∧ y.a_player_id = x.a_player_id ∧ y.b_player_id = x.b_player_id ∧
    y.requires_winner_b = x.requires_winner_b := by
  rcases h with h | ⟨h1, h2, h⟩ <;> rw [h] <;> exact ⟨rfl, rfl, rfl, rfl⟩

/-- `c8StepRel` absorbs composition: a second pass can only re-mark an
already Ready row as Ready. -/
theorem c8StepRel_trans (x y z : Match) (h1 : c8StepRel x y) (h2 : c8StepRel y z) :
    c8StepRel x z := by
  rcases h1 with h1 | ⟨ha1, hb1, h1⟩
  · rw [h1] at h2; exact h2
  · rcases h2 with h2 | ⟨ha2, hb2, h2⟩
    · rw [h2, h1]; exact Or.inr ⟨ha1, hb1, rfl⟩
    · rw [h2, h1]; exact Or.inr ⟨ha1, hb1, rfl⟩

/-- On a row that is not already bye-primed (occupied A slot, empty B slot,
`requires_winner_b = False`), the readiness check completes no bye: it leaves
the row unchanged or merely marks it Ready. -/
theorem readinessCheck_not_primed (now : Nat) (dep : Match)
    (hnp : ¬ (optTruthy dep.a_player_id = true ∧ optTruthy dep.b_player_id = false ∧
      dep.requires_winner_b = false)) :
    (readinessCheck now dep).2 = false ∧ c8StepRel dep (readinessCheck now dep).1 := by
  unfold readinessCheck
  split_ifs with h1 h2
  · exact ⟨rfl, Or.inr ⟨h1.1, h2, rfl⟩⟩
  · exfalso
    apply hnp
    refine ⟨h1.1, ?_, ?_⟩
    · simpa using h2
    · rcases h1.2 with hb | hr
      · exact absurd hb h2
      · simpa using hr
  · exact ⟨rfl, Or.inl rfl⟩

/-- One dependent step with null winner and loser preserves row ids, keeps
each row `c8StepRel`-related to its original, and completes no bye, provided
every row carrying the stepped id is not bye-primed. -/
theorem c8_step_inv (now srcId did : Nat) (ms1 : List Match)
    (hnodup : (ms1.map (fun m => m.id)).Nodup)
    (st : List Match × List Nat)
    (hids : st.1.map (fun m => m.id) = ms1.map (fun m => m.id))
    (hrel : ∀ j x, ms1.get? j = some x → ∃ y, st.1.get? j = some y ∧ c8StepRel x y)
    (hq : st.2 = [])
    (hnp : ∀ d ∈ ms1, d.id = did →
      ¬ (optTruthy d.a_player_id = true ∧ optTruthy d.b_player_id = false ∧
        d.requires_winner_b = false)) :
    (propagateStep now none none srcId st did).1.map (fun m => m.id) =
        ms1.map (fun m => m.id) ∧
    (∀ j x, ms1.get? j = some x →
      ∃ y, (propagateStep now none none srcId st did).1.get? j = some y ∧ c8StepRel x y) ∧
    (propagateStep now none none srcId st did).2 = [] := by
  unfold propagateStep
  cases hfind : st.1.find? (fun d => d.id == did) with
  | none => exact ⟨hids, hrel, hq⟩
  | some dep =>
    have hdepid : dep.id = did := by
      have h := List.find?_some hfind
      simpa using h
    have hdepmem : dep ∈ st.1 := List.mem_of_find?_eq_some hfind
    have hnodup1 : (st.1.map (fun m => m.id)).Nodup := by
      rw [hids]; exact hnodup
    obtain ⟨j0, hj0⟩ := List.get?_of_mem hdepmem
    have hlen : st.1.length = ms1.length := by
      have h := congrArg List.length hids
      simpa using h
    obtain ⟨hlt0, hget0⟩ := List.get?_eq_some.mp hj0
    have hx0lt : j0 < ms1.length := hlen ▸ hlt0
    have hx0 : ms1.get? j0 = some (ms1.get ⟨j0, hx0lt⟩) := List.get?_eq_get hx0lt
    obtain ⟨y0, hy0, hrel0⟩ := hrel j0 _ hx0
    have hy0dep : y0 = dep := by
      rw [hj0] at hy0
      exact (Option.some.inj hy0).symm
    rw [hy0dep] at hrel0
    have hfld := c8StepRel_fields _ _ hrel0
    have hx0id : (ms1.get ⟨j0, hx0lt⟩).id = did := by
      rw [← hfld.1]; exact hdepid
    have hx0mem : (ms1.get ⟨j0, hx0lt⟩) ∈ ms1 := List.get_mem ms1 j0 hx0lt
    have hnpx := hnp _ hx0mem hx0id
    have hnpdep : ¬ (optTruthy dep.a_player_id = true ∧
        optTruthy dep.b_player_id = false ∧ dep.requires_winner_b = false) := by
      rw [hfld.2.1, hfld.2.2.1, hfld.2.2.2]
      exact hnpx
    have hchk := readinessCheck_not_primed now dep hnpdep
    simp only [propagateSlots_none]
    refine ⟨?_, ?_, ?_⟩
    · rw [← hids]
      unfold updateRow
      rw [List.map_map]
      apply List.map_congr_left
      intro a _
      by_cases hadid : a.id = did
      · simp only [Function.comp_apply, if_pos hadid]
        rw [readinessCheck_id, hdepid, hadid]
      · simp only [Function.comp_apply, if_neg hadid]
    · intro j x hx
      obtain ⟨y, hy, hxy⟩ := hrel j x hx
      by_cases hyd : y.id = did
      · have hydep : y = dep :=
          List.inj_on_of_nodup_map hnodup1 (List.get?_mem hy) hdepmem
            (by rw [hyd, hdepid])
        refine ⟨(readinessCheck now dep).1, ?_, ?_⟩
        · unfold updateRow
          rw [List.get?_map, hy]
          simp only [Option.map_some', if_pos hyd]
        · exact c8StepRel_trans _ _ _ (hydep ▸ hxy) hchk.2
      · refine ⟨y, ?_, hxy⟩
        unfold updateRow
        rw [List.get?_map, hy]
        simp only [Option.map_some', if_neg hyd]
    · rw [hchk.1]
      simpa using hq

/-- The whole dependent loop with null winner and loser preserves ids, keeps
every row `c8StepRel`-related to its original, and completes no bye, provided
no row carrying a stepped id is bye-primed. -/
theorem c8_fold_inv (now srcId : Nat) (ms1 : List Match)
    (hnodup : (ms1.map (fun m => m.id)).Nodup) :
    ∀ (dids : List Nat) (st : List Match × List Nat),
      st.1.map (fun m => m.id) = ms1.map (fun m => m.id) →
      (∀ j x, ms1.get? j = some x → ∃ y, st.1.get? j = some y ∧ c8StepRel x y) →
      st.2 = [] →
      (∀ did ∈ dids, ∀ d ∈ ms1, d.id = did →
        ¬ (optTruthy d.a_player_id = true ∧ optTruthy d.b_player_id = false ∧
          d.requires_winner_b = false)) →
      (dids.foldl (propagateStep now none none srcId) st).1.map (fun m => m.id) =
          ms1.map (fun m => m.id) ∧
      (∀ j x, ms1.get? j = some x →
        ∃ y, (dids.foldl (propagateStep now none none srcId) st).1.get? j = some y ∧
          c8StepRel x y) ∧
      (dids.foldl (propagateStep now none none srcId) st).2 = [] := by
  intro dids
  induction dids with
  | nil => intro st h1 h2 h3 _; exact ⟨h1, h2, h3⟩
  | cons d ds ih =>
    intro st h1 h2 h3 h4
    simp only [List.foldl_cons]
    have hstep := c8_step_inv now srcId d ms1 hnodup st h1 h2 h3
      (h4 d (List.mem_cons_self d ds))
    exact ih _ hstep.1 hstep.2.1 hstep.2.2
      (fun d1 hd1 => h4 d1 (List.mem_cons_of_mem d hd1))

/-- Propagation with an empty work queue is finished. -/
theorem propagate_aux_nil (now fuel : Nat) (ms : List Match) :
    propagate_result_aux now fuel ms [] = ms := by
  cases fuel <;> rfl

/-- Unfolding equation for propagation when the queued id is not found. -/
theorem propagate_aux_cons_find_none (now fuel mid : Nat) (queue : List Nat)
    (ms : List Match) (hfind : ms.find? (fun x => x.id == mid) = none) :
    propagate_result_aux now (fuel + 1) ms (mid :: queue) =
      propagate_result_aux now fuel ms queue := by
  simp only [propagate_result_aux, hfind]

/-- Unfolding equation for propagation when the queued match has no usable
result (the early `continue`). -/
theorem propagate_aux_cons_skip (now fuel mid : Nat) (queue : List Nat)
    (ms : List Match) (m : Match) (hfind : ms.find? (fun x => x.id == mid) = some m)
    (hres : m.result = none ∨ m.result = some MatchResult.NO_CONTEST) :
    propagate_result_aux now (fuel + 1) ms (mid :: queue) =
      propagate_result_aux now fuel ms queue := by
  simp only [propagate_result_aux, hfind]
  rw [if_pos hres]

/-- Unfolding equation for propagation in the main case: step every dependent
of the queued match and recurse on the completed byes. -/
theorem propagate_aux_cons_go (now fuel mid : Nat) (queue : List Nat)
    (ms : List Match) (m : Match) (hfind : ms.find? (fun x => x.id == mid) = some m)
    (hres : ¬ (m.result = none ∨ m.result = some MatchResult.NO_CONTEST)) :
    propagate_result_aux now (fuel + 1) ms (mid :: queue) =
      propagate_result_aux now fuel
        (((ms.filter (fun d => d.depends_on_match_a = some mid ∨
            d.depends_on_match_b = some mid)).map (fun d => d.id)).foldl
          (propagateStep now (winnerLoserOf m).1 (winnerLoserOf m).2 mid) (ms, [])).1
        ((((ms.filter (fun d => d.depends_on_match_a = some mid ∨
            d.depends_on_match_b = some mid)).map (fun d => d.id)).foldl
          (propagateStep now (winnerLoserOf m).1 (winnerLoserOf m).2 mid) (ms, [])).2 ++
          queue) := by
  simp only [propagate_result_aux, hfind]
  rw [if_neg hres]

/-- Propagating a completed match whose winner and loser ids are both null,
in a state where no dependent of it is bye-primed, preserves the id list and
leaves every row `c8StepRel`-related to its original — in particular no
fighter slot anywhere changes. -/
theorem c8_propagate_null (now match_id fuel : Nat) (ms1 : List Match)
    (hnodup : (ms1.map (fun m => m.id)).Nodup)
    (hslots : ∀ m ∈ ms1, m.id = match_id →
      m.a_player_id = none ∧ m.b_player_id = none)
    (hprimed : ∀ d ∈ ms1, (d.depends_on_match_a = some match_id ∨
        d.depends_on_match_b = some match_id) →
      ¬ (optTruthy d.a_player_id = true ∧ optTruthy d.b_player_id = false ∧
        d.requires_winner_b = false)) :
    (propagate_result_aux now (fuel + 1) ms1 [match_id]).map (fun m => m.id) =
        ms1.map (fun m => m.id) ∧
    ∀ j x, ms1.get? j = some x →
      ∃ y, (propagate_result_aux now (fuel + 1) ms1 [match_id]).get? j = some y ∧
        c8StepRel x y := by
  cases hfind : ms1.find? (fun m => m.id == match_id) with
  | none =>
    rw [propagate_aux_cons_find_none now fuel match_id [] ms1 hfind, propagate_aux_nil]
    exact ⟨rfl, fun j x hx => ⟨x, hx, Or.inl rfl⟩⟩
  | some m1 =>
    have hm1mem : m1 ∈ ms1 := List.mem_of_find?_eq_some hfind
    have hm1id : m1.id = match_id := by
      have h := List.find?_some hfind
      simpa using h
    by_cases hres : m1.result = none ∨ m1.result = some MatchResult.NO_CONTEST
    · rw [propagate_aux_cons_skip now fuel match_id [] ms1 m1 hfind hres, propagate_aux_nil]
      exact ⟨rfl, fun j x hx => ⟨x, hx, Or.inl rfl⟩⟩
    · obtain ⟨ha1, hb1⟩ := hslots m1 hm1mem hm1id
      have hwl : winnerLoserOf m1 = (none, none) := winnerLoserOf_null m1 ha1 hb1
      rw [propagate_aux_cons_go now fuel match_id [] ms1 m1 hfind hres]
      simp only [hwl]
      have hdids : ∀ did ∈ ((ms1.filter (fun d =>
          d.depends_on_match_a = some match_id ∨
          d.depends_on_match_b = some match_id)).map (fun d => d.id)),
          ∀ d ∈ ms1, d.id = did →
          ¬ (optTruthy d.a_player_id = true ∧ optTruthy d.b_player_id = false ∧
            d.requires_winner_b = false) := by
        intro did hdid d hd hdid2
        simp only [List.mem_map, List.mem_filter] at hdid
        obtain ⟨d0, ⟨hd0mem, hd0cond⟩, hd0id⟩ := hdid
        have hd0 : d = d0 :=
          List.inj_on_of_nodup_map hnodup hd hd0mem (by rw [hdid2, hd0id])
        have hcond := of_decide_eq_true hd0cond
        rw [hd0]
        exact hprimed d0 hd0mem hcond
      have hfold := c8_fold_inv now match_id ms1 hnodup
        ((ms1.filter (fun d => d.depends_on_match_a = some match_id ∨
          d.depends_on_match_b = some match_id)).map (fun d => d.id))
        (ms1, []) rfl (fun j x hx => ⟨x, hx, Or.inl rfl⟩) rfl hdids
      rw [hfold.2.2, List.nil_append, propagate_aux_nil]
      exact ⟨hfold.1, hfold.2.1⟩

/-- C8 (amended): `update_match_result` on a match with neither fighter slot
set does NOT fail with InvalidState — it performs no slot validation and
simply records the result.  Provided no match depending on the updated one is
already bye-primed (occupied A slot, empty B slot, `requires_winner_b` false
— a configuration the engine's own bye auto-completion never leaves pending,
and which is impossible for the dependency-fed TBD matches the claim is
about, whose slots are still empty), the update succeeds, the row comes back
with the given result, method and duration, status Completed and completedAt
set, and — the winner and loser ids both being null — the propagation pass
changes no fighter slot of any row. -/
theorem c8_update_no_validation (now match_id : Nat) (res : MatchResult)
    (method : Option String) (duration : Option Nat) (ms : List Match) (m : Match)
    (i : Nat)
    (hnodup : (ms.map (fun x => x.id)).Nodup)
    (hi : ms.get? i = some m) (hid : m.id = match_id)
    (ha : m.a_player_id = none) (hb : m.b_player_id = none)
    (hprimed : ∀ d ∈ ms, (d.depends_on_match_a = some match_id ∨
        d.depends_on_match_b = some match_id) →
      ¬ (optTruthy d.a_player_id = true ∧ optTruthy d.b_player_id = false ∧
        d.requires_winner_b = false)) :
    ∃ msF, update_match_result now match_id res method duration ms = some msF ∧
      msF.length = ms.length ∧
      msF.get? i = some { m with
        result := some res
        method := method
        duration_seconds := duration
        match_status := MatchStatus.COMPLETED
        completed_at := some now } ∧
      ∀ j x y, ms.get? j = some x → msF.get? j = some y →
        y.a_player_id = x.a_player_id ∧ y.b_player_id = x.b_player_id := by
  unfold update_match_result
  cases hf : ms.find? (fun x => x.id == match_id) with
  | none =>
    have hsome : (ms.find? (fun x => x.id == match_id)).isSome := by
      rw [List.find?_isSome]
      exact ⟨m, List.get?_mem hi, by simp [hid]⟩
    rw [hf] at hsome
    simp at hsome
  | some m0 =>
    simp only [hf]
    set ms1 := updateRow ms match_id (fun mm =>
      { mm with
        result := some res
        method := method
        duration_seconds := duration
        match_status := MatchStatus.COMPLETED
        completed_at := some now }) with hms1def
    have hids1 : ms1.map (fun x => x.id) = ms.map (fun x => x.id) := by
      rw [hms1def]
      unfold updateRow
      rw [List.map_map]
      apply List.map_congr_left
      intro a _
      by_cases h : a.id = match_id
      · simp only [Function.comp_apply, if_pos h]
      · simp only [Function.comp_apply, if_neg h]
    have hnodup1 : (ms1.map (fun x => x.id)).Nodup := by
      rw [hids1]; exact hnodup
    have hrow : ∀ j x, ms.get? j = some x →
        ms1.get? j = some (if x.id = match_id then
          { x with
            result := some res
            method := method
            duration_seconds := duration
            match_status := MatchStatus.COMPLETED
            completed_at := some now } else x) := by
      intro j x hx
      rw [hms1def]
      unfold updateRow
      rw [List.get?_map, hx]
      rfl
    have hms1i : ms1.get? i = some { m with
        result := some res
        method := method
        duration_seconds := duration
        match_status := MatchStatus.COMPLETED
        completed_at := some now } := by
      have h := hrow i m hi
      rw [if_pos hid] at h
      exact h
    have hslots1 : ∀ x ∈ ms1, x.id = match_id →
        x.a_player_id = none ∧ x.b_player_id = none := by
      intro x hx hxid
      rw [hms1def] at hx
      unfold updateRow at hx
      obtain ⟨r, hr, hgr⟩ := List.mem_map.mp hx
      by_cases hrid : r.id = match_id
      · have hrm : r = m :=
          List.inj_on_of_nodup_map hnodup hr (List.get?_mem hi) (by rw [hrid, hid])
        have hdval : x = { r with
            result := some res
            method := method
            duration_seconds := duration
            match_status := MatchStatus.COMPLETED
            completed_at := some now } := by
          rw [← hgr]
          exact if_pos hrid
        rw [hdval, hrm]
        exact ⟨ha, hb⟩
      · have hdval : x = r := by
          rw [← hgr]
          exact if_neg hrid
        rw [hdval] at hxid
        exact absurd hxid hrid
    have hprimed1 : ∀ d ∈ ms1, (d.depends_on_match_a = some match_id ∨
        d.depends_on_match_b = some match_id) →
        ¬ (optTruthy d.a_player_id = true ∧ optTruthy d.b_player_id = false ∧
          d.requires_winner_b = false) := by
      intro d hd hcond
      rw [hms1def] at hd
      unfold updateRow at hd
      obtain ⟨r, hr, hgr⟩ := List.mem_map.mp hd
      by_cases hrid : r.id = match_id
      · have hdval : d = { r with
            result := some res
            method := method
            duration_seconds := duration
            match_status := MatchStatus.COMPLETED
            completed_at := some now } := by
          rw [← hgr]
          exact if_pos hrid
        rw [hdval] at hcond ⊢
        exact hprimed r hr hcond
      · have hdval : d = r := by
          rw [← hgr]
          exact if_neg hrid
        rw [hdval] at hcond ⊢
        exact hprimed r hr hcond
    have hmain := c8_propagate_null now match_id ms1.length ms1 hnodup1 hslots1 hprimed1
    refine ⟨_, rfl, ?_, ?_, ?_⟩
    · have hlenF := congrArg List.length hmain.1
      simp only [List.length_map] at hlenF
      have hlen1 := congrArg List.length hids1
      simp only [List.length_map] at hlen1
      rw [hlenF, hlen1]
    · obtain ⟨y, hy, hrely⟩ := hmain.2 i _ hms1i
      rcases hrely with hrely | ⟨hta, htb, hrely⟩
      · rw [hy, hrely]
      · exfalso
        have hta2 : optTruthy m.a_player_id = true := hta
        rw [ha] at hta2
        exact absurd hta2 (by decide)
    · intro j x y hx hy
      obtain ⟨y1, hy1, hrely⟩ := hmain.2 j _ (hrow j x hx)
      rw [hy] at hy1
      have hyy := Option.some.inj hy1
      rw [← hyy] at hrely
      have hfld := c8StepRel_fields _ _ hrely
      have hgx : (if x.id = match_id then
          ({ x with
            result := some res
            method := method
            duration_seconds := duration
            match_status := MatchStatus.COMPLETED
            completed_at := some now } : Match) else x).a_player_id = x.a_player_id ∧
          (if x.id = match_id then
          ({ x with
            result := some res
            method := method
            duration_seconds := duration
            match_status := MatchStatus.COMPLETED
            completed_at := some now } : Match) else x).b_player_id = x.b_player_id := by
        by_cases hxid : x.id = match_id
        · rw [if_pos hxid]
          exact ⟨rfl, rfl⟩
        · rw [if_neg hxid]
          exact ⟨rfl, rfl⟩
      exact ⟨hfld.2.1.trans hgx.1, hfld.2.2.1.trans hgx.2⟩

/-- A later-round TBD match: no fighters yet, both slots fed by earlier
matches. -/
def c8wM4 : Match := { id := 4, depends_on_match_a := some 1, depends_on_match_b := some 2 }

/-- A match one round further that depends on the TBD match. -/
def c8wM6 : Match := { id := 6, depends_on_match_a := some 4, depends_on_match_b := some 5 }

/-- Witness for `c8_update_no_validation` at a concrete two-match state: the
updated match has neither slot set, carries dependency references of its own
and feeds a dependent. -/
theorem c8_update_no_validation_witness :
    (([c8wM4, c8wM6].map (fun x => x.id)).Nodup) ∧
    ([c8wM4, c8wM6].get? 0 = some c8wM4) ∧
    (∀ d ∈ [c8wM4, c8wM6], (d.depends_on_match_a = some 4 ∨
        d.depends_on_match_b = some 4) →
      ¬ (optTruthy d.a_player_id = true ∧ optTruthy d.b_player_id = false ∧
        d.requires_winner_b = false)) ∧
    (∃ msF, update_match_result 9 4 MatchResult.PLAYER_A_WIN (some "Decision") (some 300)
        [c8wM4, c8wM6] = some msF ∧
      msF.length = [c8wM4, c8wM6].length ∧
      msF.get? 0 = some { c8wM4 with
        result := some MatchResult.PLAYER_A_WIN
        method := some "Decision"
        duration_seconds := some 300
        match_status := MatchStatus.COMPLETED
        completed_at := some 9 } ∧
      ∀ j x y, [c8wM4, c8wM6].get? j = some x → msF.get? j = some y →
        y.a_player_id = x.a_player_id ∧ y.b_player_id = x.b_player_id) :=
  ⟨by decide, by decide, by decide,
   c8_update_no_validation 9 4 MatchResult.PLAYER_A_WIN (some "Decision") (some 300)
     [c8wM4, c8wM6] c8wM4 0 (by decide) (by decide) (by decide) (by decide) (by decide)
     (by decide)⟩

end Vanguard
